import Mathlib

/-!
Shallow embedding of the credential-gated Lit-Protocol encryption package
(TypeScript sources: `packages/browser/src/{did,jwt,utils,index}.ts` and
`src/litActionEnhanced.ts`) together with proofs of the specification claims.

JavaScript strings are modelled as `List Char`, byte arrays (`Uint8Array`) as
`List Nat` (each element `< 256` where it matters).  Library and platform
primitives that are not part of this repository (ethers `keccak256` /
`recoverAddress` / `isAddress` / `getAddress`, `JSON.stringify` / `JSON.parse`
combined with `TextEncoder` / `TextDecoder`, WebCrypto, `fetch`,
`Date.parse`, the Lit network) are modelled as explicit environment
parameters with their contracts stated as hypotheses of the theorems.
Everything implemented in the repository itself (base64url framing, string
splitting, the verification control flow, the policy engine, the matcher,
the orchestrators) is embedded concretely.
-/

set_option maxHeartbeats 1000000

namespace LitEnc

/-! ### JavaScript string primitives -/

/-- `s.toLowerCase()` (ASCII range, which is all the code compares). -/
def jsToLower (s : List Char) : List Char :=
  s.map Char.toLower

/-- JS whitespace test used by `String.prototype.trim` (ASCII part). -/
def isJsSpace (c : Char) : Bool :=
  c = ' ' || c = '\t' || c = '\n' || c = '\r' || c.toNat = 11 || c.toNat = 12

/-- `s.trim()`. -/
def jsTrim (s : List Char) : List Char :=
  ((s.dropWhile isJsSpace).reverse.dropWhile isJsSpace).reverse

/-- Helper for `String.prototype.includes`: does `needle` occur contiguously? -/
def containsSeg (needle : List Char) : List Char → Bool
  | [] => needle.isEmpty
  | c :: rest => needle.isPrefixOf (c :: rest) || containsSeg needle rest

/-- `haystack.includes(needle)`. -/
def jsIncludes (haystack needle : List Char) : Bool :=
  containsSeg needle haystack

/-- `s.split(sep)` for a single-character separator. -/
def jsSplit (sep : Char) : List Char → List (List Char)
  | [] => [[]]
  | c :: rest =>
    match jsSplit sep rest with
    | [] => [[]]
    | seg :: segs => if c = sep then [] :: seg :: segs else (c :: seg) :: segs

/-- `arr.join(sep)` for an array of strings. -/
def jsJoin (sep : List Char) : List (List Char) → List Char
  | [] => []
  | [x] => x
  | x :: xs => x ++ sep ++ jsJoin sep xs

/-- `s.replace(pat, repl)` with a plain (non-regex) pattern: first occurrence only. -/
def replaceFirst (pat repl : List Char) : List Char → List Char
  | [] => if pat.isEmpty then repl else []
  | c :: rest =>
    if pat.isPrefixOf (c :: rest) then repl ++ (c :: rest).drop pat.length
    else c :: replaceFirst pat repl rest

/-- Fuel-based worker for decimal rendering (structural recursion so that the
kernel can evaluate it). -/
def natToDecAux : Nat → Nat → List Char
  | 0, _ => []
  | fuel + 1, n =>
    if n < 10 then [Char.ofNat (48 + n)]
    else natToDecAux fuel (n / 10) ++ [Char.ofNat (48 + n % 10)]

/-- Decimal rendering of a natural number (template-literal interpolation of a
JS integer). -/
def natToDec (n : Nat) : List Char :=
  natToDecAux (n + 1) n

theorem natToDecAux_congr (n : Nat) : ∀ f₁ f₂, n < f₁ → n < f₂ →
    natToDecAux f₁ n = natToDecAux f₂ n := by
  induction n using Nat.strong_induction_on with
  | _ n ih =>
    intro f₁ f₂ h₁ h₂
    match f₁, f₂ with
    | fa + 1, fb + 1 =>
      rw [natToDecAux, natToDecAux]
      by_cases h10 : n < 10
      · simp [h10]
      · simp only [if_neg h10]
        rw [ih (n / 10) (Nat.div_lt_self (by omega) (by omega)) fa fb (by omega) (by omega)]

/-- The recursive unfolding of `natToDec`. -/
theorem natToDec_eq (n : Nat) : natToDec n =
    if n < 10 then [Char.ofNat (48 + n)]
    else natToDec (n / 10) ++ [Char.ofNat (48 + n % 10)] := by
  rw [natToDec, natToDecAux]
  by_cases h10 : n < 10
  · simp [h10]
  · simp only [if_neg h10]
    rw [natToDec]
    congr 1
    exact natToDecAux_congr (n / 10) n (n / 10 + 1) (by omega) (by omega)

/-- Value of a string of decimal digits (`parseInt(s, 10)` on an all-digit
string). -/
def decDigitsVal (s : List Char) : Nat :=
  s.foldl (fun acc c => acc * 10 + (c.toNat - 48)) 0

/-- Lower-case hex digit (`b.toString(16)`). -/
def hexDigitChar (n : Nat) : Char :=
  "0123456789abcdef".toList.getD n '0'

/-- `b.toString(16).padStart(2, '0')` for a byte `b < 256`. -/
def byteToHex (b : Nat) : List Char :=
  [hexDigitChar (b / 16), hexDigitChar (b % 16)]

/-- `bytes.map(b => b.toString(16).padStart(2, '0')).join('')`. -/
def bytesToHex (bs : List Nat) : List Char :=
  bs.flatMap byteToHex

def isHexDigitChar (c : Char) : Bool :=
  c.isDigit || ('a' ≤ c && c ≤ 'f') || ('A' ≤ c && c ≤ 'F')

/-- The shape `0x` + 40 hex chars (the address part of the DID:PKH regex
`(0x[a-fA-F0-9]{40})`). -/
def isEthHexAddress : List Char → Bool
  | c1 :: c2 :: rest => c1 == '0' && c2 == 'x' && rest.length == 40 && rest.all isHexDigitChar
  | _ => false

/-! ### base64url (without padding), as implemented in `jwt.ts` -/

def b64urlAlphabet : List Char :=
  "ABCDEFGHIJKLMNOPQRSTUVWXYZabcdefghijklmnopqrstuvwxyz0123456789-_".toList

def b64urlChar (n : Nat) : Char :=
  b64urlAlphabet.getD n 'A'

def b64urlIndex (c : Char) : Option Nat :=
  b64urlAlphabet.indexOf? c

/-- `base64urlEncode`: `btoa` on the byte string followed by
`+`→`-`, `/`→`_` and stripping `=` padding, fused into the standard
base64url encoding of the byte list. -/
def base64urlEncode : List Nat → List Char
  | [] => []
  | [b1] => [b64urlChar (b1 / 4), b64urlChar (b1 % 4 * 16)]
  | [b1, b2] =>
    [b64urlChar (b1 / 4), b64urlChar (b1 % 4 * 16 + b2 / 16), b64urlChar (b2 % 16 * 4)]
  | b1 :: b2 :: b3 :: rest =>
    b64urlChar (b1 / 4) :: b64urlChar (b1 % 4 * 16 + b2 / 16) ::
      b64urlChar (b2 % 16 * 4 + b3 / 64) :: b64urlChar (b3 % 64) ::
      base64urlEncode rest

/-- `base64urlDecode`: `-`→`+`, `_`→`/`, re-pad with `=`, `atob`
(forgiving base64: a leftover group of length 1 is an error, leftover bits
are discarded).  `none` models the `InvalidCharacterError` thrown by `atob`. -/
def base64urlDecode : List Char → Option (List Nat)
  | [] => some []
  | [_] => none
  | [c1, c2] => do
    let n1 ← b64urlIndex c1
    let n2 ← b64urlIndex c2
    pure [n1 * 4 + n2 / 16]
  | [c1, c2, c3] => do
    let n1 ← b64urlIndex c1
    let n2 ← b64urlIndex c2
    let n3 ← b64urlIndex c3
    pure [n1 * 4 + n2 / 16, n2 % 16 * 16 + n3 / 4]
  | c1 :: c2 :: c3 :: c4 :: rest => do
    let n1 ← b64urlIndex c1
    let n2 ← b64urlIndex c2
    let n3 ← b64urlIndex c3
    let n4 ← b64urlIndex c4
    let tl ← base64urlDecode rest
    pure ((n1 * 4 + n2 / 16) :: (n2 % 16 * 16 + n3 / 4) :: (n3 % 4 * 64 + n4) :: tl)

theorem b64urlIndex_b64urlChar : ∀ n < 64, b64urlIndex (b64urlChar n) = some n := by
  decide

theorem b64urlChar_ne_dot : ∀ n < 64, b64urlChar n ≠ '.' := by
  decide

theorem b64urlChar_ne_colon : ∀ n < 64, b64urlChar n ≠ ':' := by
  decide

/-- Decoding inverts encoding on genuine byte lists. -/
theorem base64url_roundtrip :
    ∀ l : List Nat, (∀ b ∈ l, b < 256) → base64urlDecode (base64urlEncode l) = some l
  | [], _ => by rfl
  | [b1], h => by
    have hb1 : b1 < 256 := h b1 (by simp)
    rw [base64urlEncode, base64urlDecode]
    rw [b64urlIndex_b64urlChar _ (by omega : b1 / 4 < 64),
      b64urlIndex_b64urlChar _ (by omega : b1 % 4 * 16 < 64)]
    simp only [Option.bind_eq_bind, Option.some_bind, Option.pure_def]
    congr 2
    omega
  | [b1, b2], h => by
    have hb1 : b1 < 256 := h b1 (by simp)
    have hb2 : b2 < 256 := h b2 (by simp)
    rw [base64urlEncode, base64urlDecode]
    rw [b64urlIndex_b64urlChar _ (by omega : b1 / 4 < 64),
      b64urlIndex_b64urlChar _ (by omega : b1 % 4 * 16 + b2 / 16 < 64),
      b64urlIndex_b64urlChar _ (by omega : b2 % 16 * 4 < 64)]
    simp only [Option.bind_eq_bind, Option.some_bind, Option.pure_def]
    congr 2
    · omega
    congr 1
    omega
  | b1 :: b2 :: b3 :: rest, h => by
    have hb1 : b1 < 256 := h b1 (by simp)
    have hb2 : b2 < 256 := h b2 (by simp)
    have hb3 : b3 < 256 := h b3 (by simp)
    have ih := base64url_roundtrip rest (fun b hb => h b (by simp [hb]))
    rw [base64urlEncode, base64urlDecode]
    rw [b64urlIndex_b64urlChar _ (by omega : b1 / 4 < 64),
      b64urlIndex_b64urlChar _ (by omega : b1 % 4 * 16 + b2 / 16 < 64),
      b64urlIndex_b64urlChar _ (by omega : b2 % 16 * 4 + b3 / 64 < 64),
      b64urlIndex_b64urlChar _ (by omega : b3 % 64 < 64), ih]
    simp only [Option.bind_eq_bind, Option.some_bind, Option.pure_def]
    congr 2
    · omega
    congr 1
    · omega
    congr 1
    omega

/-- Every character emitted by the encoder is a base64url alphabet character. -/
theorem mem_base64urlEncode :
    ∀ l : List Nat, (∀ b ∈ l, b < 256) →
      ∀ c ∈ base64urlEncode l, ∃ k, k < 64 ∧ c = b64urlChar k
  | [], _, c, hc => by simp [base64urlEncode] at hc
  | [b1], h, c, hc => by
    have hb1 : b1 < 256 := h b1 (by simp)
    simp only [base64urlEncode, List.mem_cons, List.not_mem_nil, or_false] at hc
    rcases hc with rfl | rfl
    · exact ⟨b1 / 4, by omega, rfl⟩
    · exact ⟨b1 % 4 * 16, by omega, rfl⟩
  | [b1, b2], h, c, hc => by
    have hb1 : b1 < 256 := h b1 (by simp)
    have hb2 : b2 < 256 := h b2 (by simp)
    simp only [base64urlEncode, List.mem_cons, List.not_mem_nil, or_false] at hc
    rcases hc with rfl | rfl | rfl
    · exact ⟨b1 / 4, by omega, rfl⟩
    · exact ⟨b1 % 4 * 16 + b2 / 16, by omega, rfl⟩
    · exact ⟨b2 % 16 * 4, by omega, rfl⟩
  | b1 :: b2 :: b3 :: rest, h, c, hc => by
    have hb1 : b1 < 256 := h b1 (by simp)
    have hb2 : b2 < 256 := h b2 (by simp)
    have hb3 : b3 < 256 := h b3 (by simp)
    simp only [base64urlEncode, List.mem_cons] at hc
    rcases hc with rfl | rfl | rfl | rfl | hc
    · exact ⟨b1 / 4, by omega, rfl⟩
    · exact ⟨b1 % 4 * 16 + b2 / 16, by omega, rfl⟩
    · exact ⟨b2 % 16 * 4 + b3 / 64, by omega, rfl⟩
    · exact ⟨b3 % 64, by omega, rfl⟩
    · exact mem_base64urlEncode rest (fun b hb => h b (by simp [hb])) c hc

theorem dot_not_mem_base64urlEncode (l : List Nat) (h : ∀ b ∈ l, b < 256) :
    '.' ∉ base64urlEncode l := by
  intro hmem
  obtain ⟨k, hk, hE⟩ := mem_base64urlEncode l h '.' hmem
  exact b64urlChar_ne_dot k hk hE.symm

theorem base64urlEncode_ne_nil (l : List Nat) (h : l ≠ []) :
    base64urlEncode l ≠ [] := by
  match l with
  | [] => exact absurd rfl h
  | [b1] => simp [base64urlEncode]
  | [b1, b2] => simp [base64urlEncode]
  | b1 :: b2 :: b3 :: rest => simp [base64urlEncode]

/-! ### Lemmas about the string primitives -/

theorem isPrefixOf_append_self (p r : List Char) : p.isPrefixOf (p ++ r) = true := by
  induction p with
  | nil => simp [List.isPrefixOf]
  | cons c t ih => simp [List.isPrefixOf, ih]

theorem jsSplit_ne_nil (sep : Char) (l : List Char) : jsSplit sep l ≠ [] := by
  induction l with
  | nil => simp [jsSplit]
  | cons c rest ih =>
    rw [jsSplit]
    rcases h : jsSplit sep rest with _ | ⟨seg, segs⟩
    · simp
    · by_cases hc : c = sep <;> simp [hc]

theorem jsSplit_no_sep (sep : Char) (l : List Char) (h : sep ∉ l) :
    jsSplit sep l = [l] := by
  induction l with
  | nil => rfl
  | cons c rest ih =>
    have hc : c ≠ sep := fun hc => h (hc ▸ List.mem_cons_self c rest)
    have hrest : sep ∉ rest := fun hm => h (List.mem_cons_of_mem c hm)
    rw [jsSplit, ih hrest]
    simp [hc]

theorem jsSplit_append_sep (sep : Char) (a r : List Char) (h : sep ∉ a) :
    jsSplit sep (a ++ sep :: r) = a :: jsSplit sep r := by
  induction a with
  | nil =>
    rw [List.nil_append, jsSplit]
    rcases hr : jsSplit sep r with _ | ⟨seg, segs⟩
    · exact absurd hr (jsSplit_ne_nil sep r)
    · simp
  | cons c t ih =>
    have hc : c ≠ sep := fun hc => h (hc ▸ List.mem_cons_self c t)
    have ht : sep ∉ t := fun hm => h (List.mem_cons_of_mem c hm)
    rw [List.cons_append, jsSplit, ih ht]
    simp [hc]

theorem getLast?_cons_of_ne_nil {α : Type} (a : α) (l : List α) (h : l ≠ []) :
    (a :: l).getLast? = l.getLast? := by
  rcases l with _ | ⟨b, t⟩
  · exact absurd rfl h
  · exact List.getLast?_cons_cons

theorem two_le_length_jsSplit (sep : Char) (l : List Char) (h : sep ∈ l) :
    2 ≤ (jsSplit sep l).length := by
  induction l with
  | nil => simp at h
  | cons c rest ih =>
    rcases hr : jsSplit sep rest with _ | ⟨seg, segs⟩
    · exact absurd hr (jsSplit_ne_nil sep rest)
    · rw [jsSplit, hr]
      by_cases hc : c = sep
      · simp [hc]
      · have hmem : sep ∈ rest := by
          rcases List.mem_cons.mp h with h1 | h1
          · exact absurd h1.symm hc
          · exact h1
        have := ih hmem
        rw [hr] at this
        simp only [List.length_cons] at this
        simp only [if_neg hc, List.length_cons]
        omega

theorem getLast?_jsSplit_append (sep : Char) (l m : List Char) :
    (jsSplit sep (l ++ sep :: m)).getLast? = (jsSplit sep m).getLast? := by
  induction l with
  | nil =>
    rw [List.nil_append, jsSplit]
    rcases hm : jsSplit sep m with _ | ⟨seg, segs⟩
    · exact absurd hm (jsSplit_ne_nil sep m)
    · simp
  | cons c t ih =>
    rw [List.cons_append, jsSplit]
    rcases hr : jsSplit sep (t ++ sep :: m) with _ | ⟨seg, segs⟩
    · exact absurd hr (jsSplit_ne_nil sep _)
    · have h2 : 2 ≤ (jsSplit sep (t ++ sep :: m)).length :=
        two_le_length_jsSplit sep _ (by simp)
      rw [hr] at h2
      simp only [List.length_cons] at h2
      have hsegs : segs ≠ [] := by
        intro hnil
        rw [hnil] at h2
        simp at h2
      by_cases hc : c = sep
      · simp only [if_pos hc]
        rw [getLast?_cons_of_ne_nil _ _ (by simp), ← hr, ih]
      · simp only [if_neg hc]
        rw [getLast?_cons_of_ne_nil _ _ hsegs, ← getLast?_cons_of_ne_nil seg segs hsegs,
          ← hr, ih]

/-! ### Decimal digits -/

theorem charDigit_toNat : ∀ k < 10, (Char.ofNat (48 + k)).toNat = 48 + k := by
  decide

theorem charDigit_isDigit : ∀ k < 10, (Char.ofNat (48 + k)).isDigit = true := by
  decide

theorem natToDec_ne_nil (n : Nat) : natToDec n ≠ [] := by
  rw [natToDec_eq]
  split
  · simp
  · simp

theorem mem_natToDec_isDigit (n : Nat) : ∀ c ∈ natToDec n, c.isDigit = true := by
  induction n using Nat.strong_induction_on with
  | _ n ih =>
    intro c hc
    rw [natToDec_eq] at hc
    split at hc
    · next h =>
      simp only [List.mem_singleton] at hc
      exact hc ▸ charDigit_isDigit n h
    · next h =>
      rcases List.mem_append.mp hc with h1 | h1
      · exact ih (n / 10) (Nat.div_lt_self (by omega) (by omega)) c h1
      · simp only [List.mem_singleton] at h1
        exact h1 ▸ charDigit_isDigit (n % 10) (Nat.mod_lt n (by omega))

theorem decDigitsVal_natToDec (n : Nat) : decDigitsVal (natToDec n) = n := by
  induction n using Nat.strong_induction_on with
  | _ n ih =>
    rw [natToDec_eq]
    split
    · next h =>
      simp only [decDigitsVal, List.foldl_cons, List.foldl_nil]
      rw [charDigit_toNat n h]
      omega
    · next h =>
      have ihd := ih (n / 10) (Nat.div_lt_self (by omega) (by omega))
      simp only [decDigitsVal, List.foldl_append, List.foldl_cons, List.foldl_nil]
      simp only [decDigitsVal] at ihd
      rw [ihd, charDigit_toNat (n % 10) (Nat.mod_lt n (by omega))]
      omega

theorem isDigit_ne_colon {c : Char} (h : c.isDigit = true) : c ≠ ':' := by
  intro hc
  subst hc
  simp [Char.isDigit] at h

instance exceptDecEq {ε α : Type} [DecidableEq ε] [DecidableEq α] :
    DecidableEq (Except ε α) := fun x y =>
  match x, y with
  | .error e, .error f =>
    if h : e = f then isTrue (by rw [h]) else
      isFalse (fun hq => h (by injection hq))
  | .error _, .ok _ => isFalse (fun hq => Except.noConfusion hq)
  | .ok _, .error _ => isFalse (fun hq => Except.noConfusion hq)
  | .ok a, .ok b =>
    if h : a = b then isTrue (by rw [h]) else
      isFalse (fun hq => h (by injection hq))

/-! ### takeWhile over a concatenation -/

theorem takeWhile_append_of_pos_neg {p : Char → Bool} (l : List Char) (x : Char)
    (r : List Char) (hl : ∀ c ∈ l, p c = true) (hx : p x = false) :
    (l ++ x :: r).takeWhile p = l := by
  induction l with
  | nil => simp [List.takeWhile_cons, hx]
  | cons c t ih =>
    have hc : p c = true := hl c (List.mem_cons_self c t)
    simp only [List.cons_append, List.takeWhile_cons, hc, if_true]
    rw [ih (fun d hd => hl d (List.mem_cons_of_mem c hd))]

theorem isHexDigitChar_colon_false : isHexDigitChar ':' = false := by decide

theorem colon_not_mem_of_isEthHexAddress {l : List Char}
    (h : isEthHexAddress l = true) : ':' ∉ l := by
  match l with
  | [] => simp [isEthHexAddress] at h
  | [c] => simp [isEthHexAddress] at h
  | c1 :: c2 :: rest =>
    simp only [isEthHexAddress, Bool.and_eq_true, beq_iff_eq] at h
    obtain ⟨⟨⟨h1, h2⟩, _⟩, hall⟩ := h
    intro hmem
    rcases List.mem_cons.mp hmem with hc | hmem2
    · rw [h1] at hc; exact absurd hc (by decide)
    rcases List.mem_cons.mp hmem2 with hc | hmem3
    · rw [h2] at hc; exact absurd hc (by decide)
    have := (List.all_eq_true.mp hall) ':' hmem3
    simp [isHexDigitChar_colon_false] at this

/-! ### ethers.js primitives as an environment

`isAddress`, `getAddress` (checksumming), `keccak256` (on the UTF-8 bytes of a
string, returning a hex string) and `recoverAddress` are external library
functions; their relevant contracts appear as theorem hypotheses. -/

structure EthersEnv where
  isAddress : List Char → Bool
  getAddress : List Char → List Char
  keccak256 : List Char → List Char
  recoverAddress : List Char → List Char × List Char × Nat → Option (List Char)

/-! ### DID:PKH codec (`packages/browser/src/did.ts`) -/

structure DIDPKHAddress where
  did : List Char
  address : List Char
  chainId : Nat
  deriving DecidableEq

/-- The template literal `did:pkh:eip155:${chainId}:${checksumAddress}`. -/
def didPKHString (env : EthersEnv) (address : List Char) (chainId : Nat) : List Char :=
  "did:pkh:eip155:".toList ++ (natToDec chainId ++ ':' :: env.getAddress address)

/-- `createDIDPKH(address, chainId = 1)`. -/
def createDIDPKH (env : EthersEnv) (address : List Char) (chainId : Nat := 1) :
    Except (List Char) (List Char) :=
  if !env.isAddress address then
    .error ("Invalid Ethereum address: ".toList ++ address)
  else
    .ok (didPKHString env address chainId)

/-- The capture part of the regex `^did:pkh:eip155:(\d+):(0x[a-fA-F0-9]{40})$`
applied after the fixed prefix: greedy digits, a colon, then the address. -/
def didDigitsSplit (rest : List Char) : Option (List Char × List Char) :=
  if rest.takeWhile Char.isDigit = [] then none
  else
    match rest.drop (rest.takeWhile Char.isDigit).length with
    | c :: a =>
      if c = ':' then (if isEthHexAddress a then some (rest.takeWhile Char.isDigit, a) else none)
      else none
    | [] => none

/-- `did.match(/^did:pkh:eip155:(\d+):(0x[a-fA-F0-9]{40})$/)`, returning the
two capture groups. -/
def matchDIDPattern (did : List Char) : Option (List Char × List Char) :=
  if ("did:pkh:eip155:".toList).isPrefixOf did then
    didDigitsSplit (did.drop (("did:pkh:eip155:".toList).length))
  else none

/-- `parseDIDPKH(did)`. -/
def parseDIDPKH (env : EthersEnv) (did : List Char) : Except (List Char) DIDPKHAddress :=
  match matchDIDPattern did with
  | none => .error ("Invalid DID:PKH format: ".toList ++ did)
  | some (chainIdStr, address) =>
    if !env.isAddress address then
      .error ("Invalid address in DID:PKH: ".toList ++ address)
    else
      .ok ⟨did, env.getAddress address, decDigitsVal chainIdStr⟩

/-- `validateDIDPKHAddress(did, expectedAddress)`. -/
def validateDIDPKHAddress (env : EthersEnv) (did expectedAddress : List Char) : Bool :=
  match parseDIDPKH env did with
  | .ok parsed => jsToLower parsed.address = jsToLower expectedAddress
  | .error _ => false

/-- `extractAddressFromDID(did)`. -/
def extractAddressFromDID (env : EthersEnv) (did : List Char) : Except (List Char) (List Char) :=
  (parseDIDPKH env did).map (·.address)

/-- `isValidDIDPKH(did)`. -/
def isValidDIDPKH (env : EthersEnv) (did : List Char) : Bool :=
  match matchDIDPattern did with
  | some (_, address) => env.isAddress address
  | none => false

/-- C9: for every well-formed Ethereum address `a` (in any casing, expressed by
the ethers contracts holding at `a`) and every chain id `c`,
`parseDIDPKH (createDIDPKH a c)` succeeds and returns the checksummed form of
`a` (`getAddress a`) together with chain id `c`. -/
theorem didpkh_create_parse_roundtrip (env : EthersEnv) (a : List Char) (c : Nat)
    (hA : env.isAddress a = true)
    (hG : isEthHexAddress (env.getAddress a) = true)
    (hGA : env.isAddress (env.getAddress a) = true)
    (hIdem : env.getAddress (env.getAddress a) = env.getAddress a) :
    createDIDPKH env a c = .ok (didPKHString env a c) ∧
    parseDIDPKH env (didPKHString env a c) =
      .ok ⟨didPKHString env a c, env.getAddress a, c⟩ := by
  constructor
  · simp [createDIDPKH, hA]
  · have hpre : ("did:pkh:eip155:".toList).isPrefixOf (didPKHString env a c) = true := by
      rw [didPKHString]
      exact isPrefixOf_append_self _ _
    have hdrop : (didPKHString env a c).drop (("did:pkh:eip155:".toList).length) =
        natToDec c ++ ':' :: env.getAddress a := by
      rw [didPKHString]
      exact List.drop_left _ _
    have htake : (natToDec c ++ ':' :: env.getAddress a).takeWhile Char.isDigit =
        natToDec c :=
      takeWhile_append_of_pos_neg _ _ _ (fun d hd => mem_natToDec_isDigit c d hd) (by decide)
    have hsplit : didDigitsSplit (natToDec c ++ ':' :: env.getAddress a) =
        some (natToDec c, env.getAddress a) := by
      simp only [didDigitsSplit, htake]
      rw [if_neg (natToDec_ne_nil c), List.drop_left]
      simp [hG]
    have hmatch : matchDIDPattern (didPKHString env a c) =
        some (natToDec c, env.getAddress a) := by
      rw [matchDIDPattern, if_pos hpre, hdrop, hsplit]
    simp only [parseDIDPKH, hmatch]
    simp [hGA, hIdem, decDigitsVal_natToDec]

/-- Degenerate but contract-satisfying instantiation of the ethers primitives,
used to evaluate the theorems on concrete inputs. -/
def wEthersEnv : EthersEnv where
  isAddress := isEthHexAddress
  getAddress := id
  keccak256 := fun _ => "0xabcd".toList
  recoverAddress := fun _ _ => none

def wAddr : List Char := '0' :: 'x' :: List.replicate 40 'a'

/-- Witness for C9 at a concrete address and chain id 5. -/
theorem didpkh_create_parse_roundtrip_witness :
    createDIDPKH wEthersEnv wAddr 5 = .ok (didPKHString wEthersEnv wAddr 5) ∧
    parseDIDPKH wEthersEnv (didPKHString wEthersEnv wAddr 5) =
      .ok ⟨didPKHString wEthersEnv wAddr 5, wEthersEnv.getAddress wAddr, 5⟩ :=
  didpkh_create_parse_roundtrip wEthersEnv wAddr 5 (by decide) (by decide) (by decide)
    (by decide)

/-! ### Credential requirements and credentials (`utils.ts`) -/

/-- `githubHandle?: string | string[]`. -/
inductive GithubHandleSpec where
  | one : List Char → GithubHandleSpec
  | many : List (List Char) → GithubHandleSpec
  deriving DecidableEq

structure CredentialClaims where
  githubHandle : Option GithubHandleSpec
  minIssuanceAge : Option Int
  requiredEvidence : Option (List (List Char))
  deriving DecidableEq

structure CredentialRequirements where
  issuer : List Char
  credentialType : List Char
  claims : Option CredentialClaims
  deriving DecidableEq

structure CredentialSubject where
  id : Option (List Char)
  deriving DecidableEq

structure ParsedCredential where
  jwt : List Char
  issuer : List Char
  subject : List Char
  credentialSubject : Option CredentialSubject
  evidence : Option (List Char)
  issuanceDate : List Char
  handle : Option (List Char)
  deriving DecidableEq

/-- JS truthiness of a `string | string[]` value (`""` is falsy, any array is
truthy). -/
def githubHandleSpecTruthy : GithubHandleSpec → Bool
  | .one s => !s.isEmpty
  | .many _ => true

/-- `Array.isArray(h) ? h : [h]`. -/
def handleList : GithubHandleSpec → List (List Char)
  | .one s => [s]
  | .many l => l

/-- JS truthiness of `claims?.githubHandle`. -/
def githubHandleTruthy : Option GithubHandleSpec → Bool
  | some spec => githubHandleSpecTruthy spec
  | none => false

/-- JS truthiness of `claims?.minIssuanceAge` (a number: `0` is falsy). -/
def minIssuanceAgeTruthy : Option Int → Bool
  | some n => decide (n ≠ 0)
  | none => false

/-! ### Trust & claims policy engine (`utils.ts`) -/

/-- The default `TRUSTED_ISSUERS` environment value baked into `getEnv`. -/
def trustedIssuersEnvDefault : List Char :=
  "did:web:rebasedemokey.pages.dev,did:web:issuer.tinycloud.xyz".toList

/-- `getTrustedIssuers()`: split on commas, trim, drop empties. -/
def getTrustedIssuers : List (List Char) :=
  ((jsSplit ',' trustedIssuersEnvDefault).map jsTrim).filter (fun s => 0 < s.length)

/-- `validateTrustedIssuer(issuer)`. -/
def validateTrustedIssuer (issuer : List Char) : Bool :=
  getTrustedIssuers.contains issuer

/-- The error text for an invalid handle. -/
def invalidHandleMsg (h : List Char) : List Char :=
  "Invalid GitHub handle: ".toList ++ h ++ ". GitHub handles must be non-empty strings.".toList

/-- The `for (const handle of handles)` loop body: first handle that is falsy
or whitespace-only (the `typeof` check cannot fail in the typed model). -/
def findInvalidHandle : List (List Char) → Option (List Char)
  | [] => none
  | h :: t => if h.isEmpty || (jsTrim h).isEmpty then some h else findInvalidHandle t

/-- `validateGithubCredentialRequirements(requirements)`. -/
def validateGithubCredentialRequirements (reqs : CredentialRequirements) :
    Except (List Char) Unit :=
  if !validateTrustedIssuer reqs.issuer then
    .error ("Untrusted issuer: ".toList ++ reqs.issuer ++
      (". Trusted issuers: ".toList ++ jsJoin (", ".toList) getTrustedIssuers))
  else if reqs.credentialType ≠ "GitHubVerification".toList then
    .error ("Invalid credential type: ".toList ++ reqs.credentialType ++
      ". Only GitHubVerification is supported.".toList)
  else
    match reqs.claims.bind (·.githubHandle) with
    | none => .ok ()
    | some spec =>
      match findInvalidHandle (handleList spec) with
      | some h => .error (invalidHandleMsg h)
      | none => .ok ()

theorem getTrustedIssuers_eq :
    getTrustedIssuers =
      ["did:web:rebasedemokey.pages.dev".toList, "did:web:issuer.tinycloud.xyz".toList] := by
  decide

theorem findInvalidHandle_eq_none (l : List (List Char))
    (h : ∀ x ∈ l, jsTrim x ≠ []) : findInvalidHandle l = none := by
  induction l with
  | nil => rfl
  | cons x t ih =>
    have hx : jsTrim x ≠ [] := h x (List.mem_cons_self x t)
    have hxe : x.isEmpty = false := by
      rcases x with _ | ⟨c, cs⟩
      · exact absurd rfl hx
      · rfl
    have hte : (jsTrim x).isEmpty = false := by
      rcases hjt : jsTrim x with _ | ⟨c, cs⟩
      · exact absurd hjt hx
      · rfl
    rw [findInvalidHandle, hxe, hte]
    simp only [Bool.or_self, if_false]
    exact ih (fun y hy => h y (List.mem_cons_of_mem x hy))

theorem findInvalidHandle_eq_some (l : List (List Char))
    (h : ∃ x ∈ l, jsTrim x = []) :
    ∃ x, x ∈ l ∧ jsTrim x = [] ∧ findInvalidHandle l = some x := by
  induction l with
  | nil => simp at h
  | cons x t ih =>
    by_cases hx : jsTrim x = []
    · refine ⟨x, List.mem_cons_self x t, hx, ?_⟩
      have hte : (jsTrim x).isEmpty = true := by rw [hx]; rfl
      rw [findInvalidHandle, hte]
      simp
    · have hxe : x.isEmpty = false := by
        rcases x with _ | ⟨c, cs⟩
        · exact absurd rfl hx
        · rfl
      have hte : (jsTrim x).isEmpty = false := by
        rcases hjt : jsTrim x with _ | ⟨c, cs⟩
        · exact absurd hjt hx
        · rfl
      obtain ⟨y, hy, hyt⟩ := h
      rcases List.mem_cons.mp hy with rfl | hyt2
      · exact absurd hyt hx
      obtain ⟨z, hz, hzt, hfz⟩ := ih ⟨y, hyt2, hyt⟩
      refine ⟨z, List.mem_cons_of_mem x hz, hzt, ?_⟩
      rw [findInvalidHandle, hxe, hte]
      simpa using hfz

/-- C6: the policy engine throws `Untrusted issuer: <issuer>. Trusted issuers:
<enumerated trust list>` for issuers outside the configured trust list; for a
trusted issuer it throws on a credential type other than `GitHubVerification`
and on any empty or whitespace-only handle claim value; and it returns
normally for a trusted issuer, type `GitHubVerification`, and handle claims
that all trim to a non-empty string (or no handle claims at all). -/
theorem validateGithubCredentialRequirements_spec (reqs : CredentialRequirements) :
    (validateTrustedIssuer reqs.issuer = false →
      validateGithubCredentialRequirements reqs =
        .error ("Untrusted issuer: ".toList ++ reqs.issuer ++
          ". Trusted issuers: did:web:rebasedemokey.pages.dev, did:web:issuer.tinycloud.xyz".toList)) ∧
    (validateTrustedIssuer reqs.issuer = true →
      reqs.credentialType ≠ "GitHubVerification".toList →
      validateGithubCredentialRequirements reqs =
        .error ("Invalid credential type: ".toList ++ reqs.credentialType ++
          ". Only GitHubVerification is supported.".toList)) ∧
    (∀ spec, validateTrustedIssuer reqs.issuer = true →
      reqs.credentialType = "GitHubVerification".toList →
      reqs.claims.bind (·.githubHandle) = some spec →
      ((∃ h ∈ handleList spec, jsTrim h = []) →
        ∃ h, h ∈ handleList spec ∧ jsTrim h = [] ∧
          validateGithubCredentialRequirements reqs = .error (invalidHandleMsg h)) ∧
      ((∀ h ∈ handleList spec, jsTrim h ≠ []) →
        validateGithubCredentialRequirements reqs = .ok ())) ∧
    (validateTrustedIssuer reqs.issuer = true →
      reqs.credentialType = "GitHubVerification".toList →
      reqs.claims.bind (·.githubHandle) = none →
      validateGithubCredentialRequirements reqs = .ok ()) := by
  have hjoin : ". Trusted issuers: ".toList ++ jsJoin (", ".toList) getTrustedIssuers =
      ". Trusted issuers: did:web:rebasedemokey.pages.dev, did:web:issuer.tinycloud.xyz".toList := by
    rw [getTrustedIssuers_eq]
    decide
  refine ⟨?_, ?_, ?_, ?_⟩
  · intro h
    rw [validateGithubCredentialRequirements, h]
    rw [if_pos (by simp : (!false : Bool) = true), ← hjoin]
  · intro h hct
    rw [validateGithubCredentialRequirements, h]
    rw [if_neg (by simp : ¬ ((!true : Bool) = true)), if_pos hct]
  · intro spec h hct hgh
    constructor
    · intro hex
      obtain ⟨x, hx, hxt, hfx⟩ := findInvalidHandle_eq_some (handleList spec) hex
      refine ⟨x, hx, hxt, ?_⟩
      rw [validateGithubCredentialRequirements, h]
      rw [if_neg (by simp : ¬ ((!true : Bool) = true)), if_neg (by simp [hct]), hgh]
      simp [hfx]
    · intro hall
      rw [validateGithubCredentialRequirements, h]
      rw [if_neg (by simp : ¬ ((!true : Bool) = true)), if_neg (by simp [hct]), hgh]
      simp [findInvalidHandle_eq_none (handleList spec) hall]
  · intro h hct hgh
    rw [validateGithubCredentialRequirements, h]
    rw [if_neg (by simp : ¬ ((!true : Bool) = true)), if_neg (by simp [hct]), hgh]

def c6UntrustedReqs : CredentialRequirements where
  issuer := "did:web:untrusted-issuer.com".toList
  credentialType := "GitHubVerification".toList
  claims := some { githubHandle := some (.one "someuser".toList),
                   minIssuanceAge := none, requiredEvidence := none }

def c6ValidReqs : CredentialRequirements where
  issuer := "did:web:rebasedemokey.pages.dev".toList
  credentialType := "GitHubVerification".toList
  claims := some { githubHandle := some (.one "skgbafa".toList),
                   minIssuanceAge := none, requiredEvidence := none }

/-- Witness for C6: a concrete untrusted requirement is rejected with the
enumerating message, and a concrete trusted GitHubVerification requirement
with a non-empty handle passes. -/
theorem validateGithubCredentialRequirements_witness :
    validateGithubCredentialRequirements c6UntrustedReqs =
      .error ("Untrusted issuer: ".toList ++ c6UntrustedReqs.issuer ++
        ". Trusted issuers: did:web:rebasedemokey.pages.dev, did:web:issuer.tinycloud.xyz".toList) ∧
    validateGithubCredentialRequirements c6ValidReqs = .ok () := by
  constructor
  · exact (validateGithubCredentialRequirements_spec c6UntrustedReqs).1 (by decide)
  · exact (validateGithubCredentialRequirements_spec c6ValidReqs).2.2.1
      (.one "skgbafa".toList) (by decide) (by decide) (by decide) |>.2 (by decide)

/-! ### Credential matcher (`utils.ts` `findMatchingCredential`)

`new Date(s).getTime()` and `Date.now()` are platform primitives: they enter
as the `dateParse` oracle and the `nowMs` parameter. -/

/-- The check commented `// Check credential type` in the source:
`cred.credentialSubject && cred.credentialSubject.id &&
cred.credentialSubject.id.includes(userAddress.toLowerCase())`. -/
def credSubjectIdOk (cred : ParsedCredential) (userAddress : List Char) : Bool :=
  match cred.credentialSubject with
  | none => false
  | some cs =>
    match cs.id with
    | none => false
    | some i => !i.isEmpty && jsIncludes i (jsToLower userAddress)

/-- `cred.handle && requiredHandles.includes(cred.handle)`. -/
def credHandleOk (cred : ParsedCredential) (spec : GithubHandleSpec) : Bool :=
  match cred.handle with
  | none => false
  | some h => !h.isEmpty && (handleList spec).contains h

/-- The handle clause: guarded by JS truthiness of `claims?.githubHandle`. -/
def handleCheckFails (reqs : CredentialRequirements) (cred : ParsedCredential) : Bool :=
  match reqs.claims.bind (·.githubHandle) with
  | some spec => githubHandleSpecTruthy spec && !credHandleOk cred spec
  | none => false

/-- The issuance-age clause: guarded by JS truthiness of
`claims?.minIssuanceAge`; fails when
`new Date(cred.issuanceDate).getTime() < Date.now() - minIssuanceAge * 1000`. -/
def ageCheckFails (dateParse : List Char → Int) (nowMs : Int)
    (reqs : CredentialRequirements) (cred : ParsedCredential) : Bool :=
  match reqs.claims.bind (·.minIssuanceAge) with
  | some age => decide (age ≠ 0) && decide (dateParse cred.issuanceDate < nowMs - age * 1000)
  | none => false

/-- The predicate passed to `credentials.find(...)`. -/
def credMatches (dateParse : List Char → Int) (nowMs : Int)
    (reqs : CredentialRequirements) (userAddress : List Char)
    (cred : ParsedCredential) : Bool :=
  if cred.issuer ≠ reqs.issuer then false
  else if !credSubjectIdOk cred userAddress then false
  else if handleCheckFails reqs cred then false
  else if ageCheckFails dateParse nowMs reqs cred then false
  else true

/-- `findMatchingCredential(credentials, requirements, userAddress)`. -/
def findMatchingCredential (dateParse : List Char → Int) (nowMs : Int)
    (credentials : List ParsedCredential) (reqs : CredentialRequirements)
    (userAddress : List Char) : Option ParsedCredential :=
  credentials.find? (credMatches dateParse nowMs reqs userAddress)

def c5Reqs : CredentialRequirements where
  issuer := "did:web:rebasedemokey.pages.dev".toList
  credentialType := "GitHubVerification".toList
  claims := some { githubHandle := some (.one "alice".toList),
                   minIssuanceAge := some 60, requiredEvidence := none }

def c5Cred : ParsedCredential where
  jwt := "jwt".toList
  issuer := "did:web:rebasedemokey.pages.dev".toList
  subject := "did:pkh:eip155:1:0xab".toList
  credentialSubject := some ⟨some "did:pkh:eip155:1:0xab".toList⟩
  evidence := none
  issuanceDate := "2024-01-01T00:00:00Z".toList
  handle := some "alice".toList

/-- A `Date` oracle under which `c5Cred` was issued exactly at the current
instant (age `0`). -/
def c5DateNow : List Char → Int := fun _ => 1000000

/-- A `Date` oracle under which `c5Cred` is 1000 seconds old. -/
def c5DateOld : List Char → Int := fun _ => 0

/-- C5 counterexample: with `minIssuanceAge := 60`, a credential of age `0`
(younger than 60 seconds) IS matched, and the same credential at age 1000
seconds (older than 60 seconds) is NOT matched — the code enforces a maximum,
not a minimum, age. -/
theorem findMatchingCredential_minIssuanceAge_counterexample :
    findMatchingCredential c5DateNow 1000000 [c5Cred] c5Reqs ("0xAB".toList) = some c5Cred ∧
    (1000000 : Int) - c5DateNow c5Cred.issuanceDate < 60 * 1000 ∧
    findMatchingCredential c5DateOld 1000000 [c5Cred] c5Reqs ("0xAB".toList) = none ∧
    (60 : Int) * 1000 < (1000000 : Int) - c5DateOld c5Cred.issuanceDate := by
  refine ⟨by decide, by decide, by decide, by decide⟩

/-- C5 amended: when the requirement specifies a (non-zero) `minIssuanceAge`,
a credential matches only if `now - issuanceDate <= minIssuanceAge * 1000`
milliseconds, i.e. only credentials at MOST `minIssuanceAge` seconds old are
returned; older credentials are not matched. -/
theorem findMatchingCredential_age_upper_bound (dateParse : List Char → Int)
    (nowMs : Int) (credentials : List ParsedCredential)
    (reqs : CredentialRequirements) (userAddress : List Char)
    (cred : ParsedCredential) (age : Int)
    (hAge : reqs.claims.bind (·.minIssuanceAge) = some age) (hNz : age ≠ 0)
    (hFind : findMatchingCredential dateParse nowMs credentials reqs userAddress =
      some cred) :
    nowMs - dateParse cred.issuanceDate ≤ age * 1000 := by
  have hp : credMatches dateParse nowMs reqs userAddress cred = true :=
    List.find?_some hFind
  rw [credMatches] at hp
  split_ifs at hp with h1 h2 h3 h4
  rw [ageCheckFails, hAge] at h4
  simp only [Bool.and_eq_true, decide_eq_true_eq, not_and, Decidable.not_not] at h4
  have := h4 hNz
  omega

/-- Witness for the amended C5 theorem at a concrete in-window input. -/
theorem findMatchingCredential_age_upper_bound_witness :
    (1000000 : Int) - c5DateNow c5Cred.issuanceDate ≤ 60 * 1000 :=
  findMatchingCredential_age_upper_bound c5DateNow 1000000 [c5Cred] c5Reqs
    ("0xAB".toList) c5Cred 60 (by decide) (by decide) (by decide)

/-! ### C7: first-match semantics of the matcher, stated against the
predicate spelled out by the specification -/

/-- Spec wording: the credential's `credentialSubject.id` contains the
lowercased user address as a substring. -/
def specSubjectOk (cred : ParsedCredential) (userAddress : List Char) : Bool :=
  match cred.credentialSubject with
  | none => false
  | some cs =>
    match cs.id with
    | none => false
    | some i => jsIncludes i (jsToLower userAddress)

/-- Spec wording: when handle claims are specified, the credential's handle is
among the accepted values. -/
def specHandleOk (reqs : CredentialRequirements) (cred : ParsedCredential) : Bool :=
  match reqs.claims.bind (·.githubHandle) with
  | none => true
  | some spec =>
    match cred.handle with
    | some h => (handleList spec).contains h
    | none => false

/-- The claim's matching predicate: issuer equality, subject binding, handle
membership. -/
def c7SpecPred (reqs : CredentialRequirements) (userAddress : List Char)
    (cred : ParsedCredential) : Bool :=
  (cred.issuer == reqs.issuer) && specSubjectOk cred userAddress &&
    specHandleOk reqs cred

theorem jsToLower_ne_nil {ua : List Char} (h : ua ≠ []) : jsToLower ua ≠ [] := by
  rcases ua with _ | ⟨c, t⟩
  · exact absurd rfl h
  · simp [jsToLower]

theorem credSubjectIdOk_eq_spec (cred : ParsedCredential) (ua : List Char)
    (hAddr : ua ≠ []) : credSubjectIdOk cred ua = specSubjectOk cred ua := by
  rcases hcs : cred.credentialSubject with _ | cs
  · simp [credSubjectIdOk, specSubjectOk, hcs]
  rcases hid : cs.id with _ | i
  · simp [credSubjectIdOk, specSubjectOk, hcs, hid]
  rcases i with _ | ⟨c, t⟩
  · have hinc : jsIncludes [] (jsToLower ua) = false := by
      rw [jsIncludes, containsSeg]
      rcases hu : jsToLower ua with _ | ⟨c, t⟩
      · exact absurd hu (jsToLower_ne_nil hAddr)
      · rfl
    simp [credSubjectIdOk, specSubjectOk, hcs, hid, hinc]
  · simp [credSubjectIdOk, specSubjectOk, hcs, hid, List.isEmpty]

theorem handleCheckFails_eq_not_spec (reqs : CredentialRequirements)
    (cred : ParsedCredential)
    (hSpec : reqs.claims.bind (·.githubHandle) ≠ some (.one []))
    (hH : cred.handle ≠ some []) :
    handleCheckFails reqs cred = !specHandleOk reqs cred := by
  rcases hgh : reqs.claims.bind (·.githubHandle) with _ | spec
  · simp [handleCheckFails, specHandleOk, hgh]
  rcases spec with s | l
  · rcases s with _ | ⟨c, t⟩
    · exact absurd hgh hSpec
    rcases hch : cred.handle with _ | h
    · simp [handleCheckFails, specHandleOk, hgh, hch, githubHandleSpecTruthy,
        credHandleOk, List.isEmpty]
    rcases h with _ | ⟨d, ds⟩
    · exact absurd hch hH
    simp [handleCheckFails, specHandleOk, hgh, hch, githubHandleSpecTruthy,
      credHandleOk, List.isEmpty]
  · rcases hch : cred.handle with _ | h
    · simp [handleCheckFails, specHandleOk, hgh, hch, githubHandleSpecTruthy,
        credHandleOk, List.isEmpty]
    rcases h with _ | ⟨d, ds⟩
    · exact absurd hch hH
    simp [handleCheckFails, specHandleOk, hgh, hch, githubHandleSpecTruthy,
      credHandleOk, List.isEmpty]

theorem ageCheckFails_of_not_truthy (dateParse : List Char → Int) (nowMs : Int)
    (reqs : CredentialRequirements) (cred : ParsedCredential)
    (h : minIssuanceAgeTruthy (reqs.claims.bind (·.minIssuanceAge)) = false) :
    ageCheckFails dateParse nowMs reqs cred = false := by
  rcases hma : reqs.claims.bind (·.minIssuanceAge) with _ | a
  · simp [ageCheckFails, hma]
  · rw [hma] at h
    simp only [minIssuanceAgeTruthy, decide_eq_false_iff_not, Decidable.not_not] at h
    simp [ageCheckFails, hma, h]

theorem credMatches_eq_c7SpecPred (dateParse : List Char → Int) (nowMs : Int)
    (reqs : CredentialRequirements) (userAddress : List Char)
    (cred : ParsedCredential)
    (hAgeOff : minIssuanceAgeTruthy (reqs.claims.bind (·.minIssuanceAge)) = false)
    (hAddr : userAddress ≠ [])
    (hSpec : reqs.claims.bind (·.githubHandle) ≠ some (.one []))
    (hH : cred.handle ≠ some []) :
    credMatches dateParse nowMs reqs userAddress cred =
      c7SpecPred reqs userAddress cred := by
  rw [credMatches, c7SpecPred, credSubjectIdOk_eq_spec cred userAddress hAddr,
    handleCheckFails_eq_not_spec reqs cred hSpec hH,
    ageCheckFails_of_not_truthy dateParse nowMs reqs cred hAgeOff]
  by_cases hIss : cred.issuer = reqs.issuer <;>
    cases hs : specSubjectOk cred userAddress <;>
      cases hh : specHandleOk reqs cred <;>
        simp [hIss, hs, hh]

theorem find?_congr_mem {α : Type} (p q : α → Bool) (l : List α)
    (h : ∀ x ∈ l, p x = q x) : l.find? p = l.find? q := by
  induction l with
  | nil => rfl
  | cons c t ih =>
    rw [List.find?_cons, List.find?_cons, h c (List.mem_cons_self c t),
      ih (fun x hx => h x (List.mem_cons_of_mem c hx))]

/-- C7: with no issuance-age claim in play (and non-degenerate address /
handle values), `findMatchingCredential` returns exactly the first credential
in input order whose issuer equals the requirement's, whose subject id
contains the lowercased user address, and whose handle is among the accepted
values; and it returns none whenever the address-substring check fails for
every credential. -/
theorem findMatchingCredential_first_match (dateParse : List Char → Int)
    (nowMs : Int) (credentials : List ParsedCredential)
    (reqs : CredentialRequirements) (userAddress : List Char)
    (hAgeOff : minIssuanceAgeTruthy (reqs.claims.bind (·.minIssuanceAge)) = false)
    (hAddr : userAddress ≠ [])
    (hSpec : reqs.claims.bind (·.githubHandle) ≠ some (.one []))
    (hH : ∀ c ∈ credentials, c.handle ≠ some []) :
    findMatchingCredential dateParse nowMs credentials reqs userAddress =
      credentials.find? (c7SpecPred reqs userAddress) ∧
    ((∀ c ∈ credentials, specSubjectOk c userAddress = false) →
      findMatchingCredential dateParse nowMs credentials reqs userAddress = none) := by
  have hEq : findMatchingCredential dateParse nowMs credentials reqs userAddress =
      credentials.find? (c7SpecPred reqs userAddress) := by
    rw [findMatchingCredential]
    exact find?_congr_mem _ _ credentials (fun c hc =>
      credMatches_eq_c7SpecPred dateParse nowMs reqs userAddress c hAgeOff hAddr hSpec
        (hH c hc))
  refine ⟨hEq, fun hall => ?_⟩
  rw [hEq]
  refine List.find?_eq_none.mpr (fun c hc => ?_)
  rw [c7SpecPred, hall c hc]
  simp

def c7Reqs : CredentialRequirements where
  issuer := "did:web:rebasedemokey.pages.dev".toList
  credentialType := "GitHubVerification".toList
  claims := some { githubHandle := some (.one "alice".toList),
                   minIssuanceAge := none, requiredEvidence := none }

def c7Addr : List Char := "0xAB".toList

def c7Bad1 : ParsedCredential where
  jwt := "jwt1".toList
  issuer := "did:web:evil.example".toList
  subject := "did:pkh:eip155:1:0xab".toList
  credentialSubject := some ⟨some "did:pkh:eip155:1:0xab".toList⟩
  evidence := none
  issuanceDate := "2024-01-01T00:00:00Z".toList
  handle := some "alice".toList

def c7Good : ParsedCredential where
  jwt := "jwt2".toList
  issuer := "did:web:rebasedemokey.pages.dev".toList
  subject := "did:pkh:eip155:1:0xab".toList
  credentialSubject := some ⟨some "did:pkh:eip155:1:0xab".toList⟩
  evidence := none
  issuanceDate := "2024-01-01T00:00:00Z".toList
  handle := some "alice".toList

def c7Bad2 : ParsedCredential where
  jwt := "jwt3".toList
  issuer := "did:web:rebasedemokey.pages.dev".toList
  subject := "did:pkh:eip155:1:0xab".toList
  credentialSubject := some ⟨some "did:pkh:eip155:1:0xab".toList⟩
  evidence := none
  issuanceDate := "2024-01-01T00:00:00Z".toList
  handle := some "bob".toList

def c7BadAddr : ParsedCredential where
  jwt := "jwt4".toList
  issuer := "did:web:rebasedemokey.pages.dev".toList
  subject := "did:pkh:eip155:1:0xcd".toList
  credentialSubject := some ⟨some "did:pkh:eip155:1:0xcd".toList⟩
  evidence := none
  issuanceDate := "2024-01-01T00:00:00Z".toList
  handle := some "alice".toList

/-- Witness for C7: in a pool of three credentials where exactly the second
satisfies all predicates, exactly that credential is returned; and a pool
whose only credential fails the address-substring check (issuer and handle
matching) yields none. -/
theorem findMatchingCredential_first_match_witness :
    findMatchingCredential c5DateNow 0 [c7Bad1, c7Good, c7Bad2] c7Reqs c7Addr =
      some c7Good ∧
    findMatchingCredential c5DateNow 0 [c7BadAddr] c7Reqs c7Addr = none := by
  constructor
  · rw [(findMatchingCredential_first_match c5DateNow 0 [c7Bad1, c7Good, c7Bad2]
      c7Reqs c7Addr (by decide) (by decide) (by decide) (by decide)).1]
    decide
  · exact (findMatchingCredential_first_match c5DateNow 0 [c7BadAddr] c7Reqs c7Addr
      (by decide) (by decide) (by decide) (by decide)).2 (by decide)

/-! ### ES256K JWT signer / verifier (`packages/browser/src/jwt.ts`)

`JSON.stringify` composed with `TextEncoder.encode` (and the inverse
`TextDecoder.decode` composed with `JSON.parse`) are platform built-ins; they
are modelled as a codec environment whose round-trip contract appears as a
hypothesis.  A wallet's `signingKey.sign` is modelled by the two 32-byte
components `getBytes(signature.r)` / `getBytes(signature.s)` it yields. -/

structure ES256KJWTHeader where
  alg : List Char
  typ : List Char
  kid : List Char
  deriving DecidableEq

structure ES256KJWTPayload where
  iss : List Char
  sub : List Char
  aud : List Char
  exp : Int
  iat : Int
  nonce : List Char
  purpose : List Char
  resource : List Char
  credential_requirements : Option CredentialRequirements
  deriving DecidableEq

/-- The caller-supplied payload fields of `signES256KJWT`
(`Omit<ES256KJWTPayload, 'iss' | 'sub' | 'iat' | 'nonce'>`; the `exp` slot is
overwritten by the signer, and the call sites never pass one). -/
structure SignFields where
  aud : List Char
  purpose : List Char
  resource : List Char
  credential_requirements : Option CredentialRequirements
  deriving DecidableEq

/-- `JSON.stringify`+`TextEncoder` / `TextDecoder`+`JSON.parse` for the two
JSON shapes of the token. -/
structure JwtCodec where
  encodeHeaderBytes : ES256KJWTHeader → List Nat
  decodeHeaderBytes : List Nat → Option ES256KJWTHeader
  encodePayloadBytes : ES256KJWTPayload → List Nat
  decodePayloadBytes : List Nat → Option ES256KJWTPayload

/-- A browser wallet: its address and the `r`/`s` byte components of
`wallet.signingKey.sign(messageHash)`. -/
structure Wallet where
  address : List Char
  signR : List Char → List Nat
  signS : List Char → List Nat

/-- The header built by `signES256KJWT`. -/
def signedHeader (env : EthersEnv) (wallet : Wallet) : ES256KJWTHeader where
  alg := "ES256K".toList
  typ := "JWT".toList
  kid := didPKHString env wallet.address 1 ++ "#controller".toList

/-- The complete payload built by `signES256KJWT` (the `generateNonce()` draw
enters as the explicit `nonce` parameter, the clock as `now`). -/
def signedPayload (env : EthersEnv) (wallet : Wallet) (nonce : List Char)
    (payload : SignFields) (expirationMinutes : Int) (now : Int) : ES256KJWTPayload where
  iss := didPKHString env wallet.address 1
  sub := didPKHString env wallet.address 1
  aud := payload.aud
  exp := now + expirationMinutes * 60
  iat := now
  nonce := nonce
  purpose := payload.purpose
  resource := payload.resource
  credential_requirements := payload.credential_requirements

/-- The compact token string produced by `signES256KJWT` when the address is
valid. -/
def signedToken (env : EthersEnv) (codec : JwtCodec) (wallet : Wallet)
    (nonce : List Char) (payload : SignFields) (expirationMinutes : Int)
    (now : Int) : List Char :=
  let encodedHeader := base64urlEncode (codec.encodeHeaderBytes (signedHeader env wallet))
  let encodedPayload := base64urlEncode (codec.encodePayloadBytes
    (signedPayload env wallet nonce payload expirationMinutes now))
  let signingInput := encodedHeader ++ '.' :: encodedPayload
  let messageHash := env.keccak256 signingInput
  signingInput ++ '.' :: base64urlEncode (wallet.signR messageHash ++ wallet.signS messageHash)

/-- `signES256KJWT(wallet, payload, expirationMinutes = 5)`. -/
def signES256KJWT (env : EthersEnv) (codec : JwtCodec) (wallet : Wallet)
    (nonce : List Char) (payload : SignFields) (expirationMinutes : Int)
    (now : Int) : Except (List Char) (List Char) :=
  match createDIDPKH env wallet.address 1 with
  | .error e => .error e
  | .ok _ => .ok (signedToken env codec wallet nonce payload expirationMinutes now)

/-- One iteration of the recovery-id trial loop in `verifyES256KJWT`:
recover with `v`, compare case-insensitively against the expected address;
a throwing `recoverAddress` counts as failure. -/
def tryRecover (env : EthersEnv) (messageHash r s expected : List Char)
    (v : Nat) : Bool :=
  match env.recoverAddress messageHash (r, s, v) with
  | some recovered => jsToLower recovered = jsToLower expected
  | none => false

/-- `verifyES256KJWT(jwt)`; the `Bool` in the result is `valid`. -/
def verifyES256KJWT (env : EthersEnv) (codec : JwtCodec) (now : Int)
    (jwt : List Char) :
    Except (List Char) (ES256KJWTHeader × ES256KJWTPayload × Bool) :=
  let segs := jsSplit '.' jwt
  let encodedHeader := segs.getD 0 []
  let encodedPayload := segs.getD 1 []
  let encodedSignature := segs.getD 2 []
  if encodedHeader = [] ∨ encodedPayload = [] ∨ encodedSignature = [] then
    .error "Invalid JWT format".toList
  else
    match base64urlDecode encodedHeader with
    | none => .error "InvalidCharacterError".toList
    | some headerBytes =>
      match codec.decodeHeaderBytes headerBytes with
      | none => .error "SyntaxError".toList
      | some header =>
        match base64urlDecode encodedPayload with
        | none => .error "InvalidCharacterError".toList
        | some payloadBytes =>
          match codec.decodePayloadBytes payloadBytes with
          | none => .error "SyntaxError".toList
          | some payload =>
            if header.alg ≠ "ES256K".toList then
              .error ("Unsupported algorithm: ".toList ++ header.alg)
            else if ("did:pkh:eip155:".toList).isPrefixOf payload.iss = false ∨
                payload.iss ≠ payload.sub then
              .error "Invalid DID format in JWT".toList
            else
              let signerAddress := ((jsSplit ':' payload.iss).getLast?).getD []
              if signerAddress = [] ∨ env.isAddress signerAddress = false then
                .error "Invalid address in JWT DID".toList
              else if payload.exp < now then
                .ok (header, payload, false)
              else
                let messageHash := env.keccak256 (encodedHeader ++ '.' :: encodedPayload)
                match base64urlDecode encodedSignature with
                | none => .error "InvalidCharacterError".toList
                | some rawSignature =>
                  if rawSignature.length ≠ 64 then
                    .error "Invalid signature length".toList
                  else
                    let r := '0' :: 'x' :: bytesToHex (rawSignature.take 32)
                    let s := '0' :: 'x' :: bytesToHex (rawSignature.drop 32)
                    .ok (header, payload,
                      tryRecover env messageHash r s signerAddress 27 ||
                        tryRecover env messageHash r s signerAddress 28)

/-- `createEncryptionJWT(wallet, credentialRequirements)`. -/
def createEncryptionJWT (env : EthersEnv) (codec : JwtCodec) (wallet : Wallet)
    (nonce : List Char) (credentialRequirements : CredentialRequirements)
    (now : Int) : Except (List Char) (List Char) :=
  signES256KJWT env codec wallet nonce
    { aud := "lit-protocol-encryption".toList
      purpose := "encrypt".toList
      resource := "credential-gated-secret".toList
      credential_requirements := some credentialRequirements } 5 now

/-- `createDecryptionJWT(wallet, credentialRequirements)`. -/
def createDecryptionJWT (env : EthersEnv) (codec : JwtCodec) (wallet : Wallet)
    (nonce : List Char) (credentialRequirements : CredentialRequirements)
    (now : Int) : Except (List Char) (List Char) :=
  signES256KJWT env codec wallet nonce
    { aud := "lit-protocol-encryption".toList
      purpose := "decrypt".toList
      resource := "credential-gated-secret".toList
      credential_requirements := some credentialRequirements } 5 now

/-- `parseJWT(jwt)`: decode-only inspection (requires the first two
segments). -/
def parseJWT (codec : JwtCodec) (jwt : List Char) :
    Except (List Char) (ES256KJWTHeader × ES256KJWTPayload) :=
  let segs := jsSplit '.' jwt
  let encodedHeader := segs.getD 0 []
  let encodedPayload := segs.getD 1 []
  if encodedHeader = [] ∨ encodedPayload = [] then
    .error "Invalid JWT format".toList
  else
    match base64urlDecode encodedHeader with
    | none => .error "InvalidCharacterError".toList
    | some headerBytes =>
      match codec.decodeHeaderBytes headerBytes with
      | none => .error "SyntaxError".toList
      | some header =>
        match base64urlDecode encodedPayload with
        | none => .error "InvalidCharacterError".toList
        | some payloadBytes =>
          match codec.decodePayloadBytes payloadBytes with
          | none => .error "SyntaxError".toList
          | some payload => .ok (header, payload)

/-- `validateJWTUserAddress(jwt, expectedAddress)`: any thrown error yields
`false`. -/
def validateJWTUserAddress (env : EthersEnv) (codec : JwtCodec)
    (jwt expectedAddress : List Char) : Bool :=
  match parseJWT codec jwt with
  | .ok (_, payload) => validateDIDPKHAddress env payload.iss expectedAddress
  | .error _ => false

theorem jsSplit_token (eh ep es : List Char) (h1 : '.' ∉ eh) (h2 : '.' ∉ ep)
    (h3 : '.' ∉ es) :
    jsSplit '.' ((eh ++ '.' :: ep) ++ '.' :: es) = [eh, ep, es] := by
  rw [List.append_assoc, List.cons_append, jsSplit_append_sep '.' eh _ h1,
    jsSplit_append_sep '.' ep _ h2, jsSplit_no_sep '.' es h3]

theorem isEthHexAddress_ne_nil {l : List Char} (h : isEthHexAddress l = true) :
    l ≠ [] := by
  rcases l with _ | ⟨c, t⟩
  · simp [isEthHexAddress] at h
  · simp

theorem didPKHString_hasPrefix (env : EthersEnv) (a : List Char) (c : Nat) :
    ("did:pkh:eip155:".toList).isPrefixOf (didPKHString env a c) = true := by
  rw [didPKHString]
  exact isPrefixOf_append_self _ _

/-- `payload.iss.split(':').pop()` on a constructed DID recovers the
checksummed address. -/
theorem didPKHString_signerAddress (env : EthersEnv) (a : List Char) (c : Nat)
    (hG : isEthHexAddress (env.getAddress a) = true) :
    ((jsSplit ':' (didPKHString env a c)).getLast?).getD [] = env.getAddress a := by
  rw [didPKHString,
    show "did:pkh:eip155:".toList ++ (natToDec c ++ ':' :: env.getAddress a) =
      ("did:pkh:eip155:".toList ++ natToDec c) ++ ':' :: env.getAddress a from by
      rw [List.append_assoc],
    getLast?_jsSplit_append, jsSplit_no_sep ':' _ (colon_not_mem_of_isEthHexAddress hG)]
  rfl

/-- Control-flow skeleton of `verifyES256KJWT` on a well-formed three-segment
token: with all structural checks passing, an expired payload yields a soft
`valid: false` result, and an unexpired one hands the decision to the
recovery-id trial loop. -/
theorem verifyES256KJWT_checks (env : EthersEnv) (codec : JwtCodec) (now : Int)
    (eh ep es : List Char) (header : ES256KJWTHeader) (payload : ES256KJWTPayload)
    (saddr : List Char)
    (hd1 : '.' ∉ eh) (hd2 : '.' ∉ ep) (hd3 : '.' ∉ es)
    (hne1 : eh ≠ []) (hne2 : ep ≠ []) (hne3 : es ≠ [])
    (hbH : (base64urlDecode eh).bind codec.decodeHeaderBytes = some header)
    (hbP : (base64urlDecode ep).bind codec.decodePayloadBytes = some payload)
    (halg : header.alg = "ES256K".toList)
    (hpre : ("did:pkh:eip155:".toList).isPrefixOf payload.iss = true)
    (hsub : payload.iss = payload.sub)
    (hsa : ((jsSplit ':' payload.iss).getLast?).getD [] = saddr)
    (hsane : saddr ≠ [])
    (hsaaddr : env.isAddress saddr = true) :
    (payload.exp < now →
      verifyES256KJWT env codec now ((eh ++ '.' :: ep) ++ '.' :: es) =
        .ok (header, payload, false)) ∧
    (¬ payload.exp < now → ∀ sig, base64urlDecode es = some sig → sig.length = 64 →
      verifyES256KJWT env codec now ((eh ++ '.' :: ep) ++ '.' :: es) =
        .ok (header, payload,
          tryRecover env (env.keccak256 (eh ++ '.' :: ep))
            ('0' :: 'x' :: bytesToHex (sig.take 32))
            ('0' :: 'x' :: bytesToHex (sig.drop 32)) saddr 27 ||
          tryRecover env (env.keccak256 (eh ++ '.' :: ep))
            ('0' :: 'x' :: bytesToHex (sig.take 32))
            ('0' :: 'x' :: bytesToHex (sig.drop 32)) saddr 28)) := by
  have hsplit := jsSplit_token eh ep es hd1 hd2 hd3
  have g0 : ([eh, ep, es] : List (List Char)).getD 0 [] = eh := rfl
  have g1 : ([eh, ep, es] : List (List Char)).getD 1 [] = ep := rfl
  have g2 : ([eh, ep, es] : List (List Char)).getD 2 [] = es := rfl
  rcases hdH : base64urlDecode eh with _ | hb
  · rw [hdH] at hbH
    simp at hbH
  rcases hdP : base64urlDecode ep with _ | pb
  · rw [hdP] at hbP
    simp at hbP
  rw [hdH] at hbH
  rw [hdP] at hbP
  simp only [Option.some_bind] at hbH hbP
  constructor
  · intro hexp
    simp only [verifyES256KJWT, hsplit, g0, g1, g2]
    rw [if_neg (by simp [hne1, hne2, hne3])]
    rw [hdH]
    simp only [hbH]
    rw [hdP]
    simp only [hbP]
    rw [if_neg (by simp [halg])]
    rw [if_neg (not_or.mpr ⟨fun hfalse => by rw [hpre] at hfalse; exact Bool.noConfusion hfalse,
      fun h => h hsub⟩)]
    rw [hsa]
    rw [if_neg (by simp [hsane, hsaaddr])]
    rw [if_pos hexp]
  · intro hexp sig hsig hlen
    simp only [verifyES256KJWT, hsplit, g0, g1, g2]
    rw [if_neg (by simp [hne1, hne2, hne3])]
    rw [hdH]
    simp only [hbH]
    rw [hdP]
    simp only [hbP]
    rw [if_neg (by simp [halg])]
    rw [if_neg (not_or.mpr ⟨fun hfalse => by rw [hpre] at hfalse; exact Bool.noConfusion hfalse,
      fun h => h hsub⟩)]
    rw [hsa]
    rw [if_neg (by simp [hsane, hsaaddr])]
    rw [if_neg hexp]
    simp only [hsig]
    rw [if_neg (by simp [hlen])]

/-! Named intermediate values of `signES256KJWT`, for stating the round-trip. -/

def encodedHeaderOf (env : EthersEnv) (codec : JwtCodec) (wallet : Wallet) : List Char :=
  base64urlEncode (codec.encodeHeaderBytes (signedHeader env wallet))

def encodedPayloadOf (env : EthersEnv) (codec : JwtCodec) (wallet : Wallet)
    (nonce : List Char) (payload : SignFields) (expirationMinutes now : Int) : List Char :=
  base64urlEncode (codec.encodePayloadBytes
    (signedPayload env wallet nonce payload expirationMinutes now))

def messageHashOf (env : EthersEnv) (codec : JwtCodec) (wallet : Wallet)
    (nonce : List Char) (payload : SignFields) (expirationMinutes now : Int) : List Char :=
  env.keccak256 (encodedHeaderOf env codec wallet ++ '.' ::
    encodedPayloadOf env codec wallet nonce payload expirationMinutes now)

def rawSignatureOf (env : EthersEnv) (codec : JwtCodec) (wallet : Wallet)
    (nonce : List Char) (payload : SignFields) (expirationMinutes now : Int) : List Nat :=
  wallet.signR (messageHashOf env codec wallet nonce payload expirationMinutes now) ++
    wallet.signS (messageHashOf env codec wallet nonce payload expirationMinutes now)

theorem signedToken_eq (env : EthersEnv) (codec : JwtCodec) (wallet : Wallet)
    (nonce : List Char) (payload : SignFields) (expirationMinutes now : Int) :
    signedToken env codec wallet nonce payload expirationMinutes now =
      (encodedHeaderOf env codec wallet ++ '.' ::
        encodedPayloadOf env codec wallet nonce payload expirationMinutes now) ++
      '.' :: base64urlEncode (rawSignatureOf env codec wallet nonce payload expirationMinutes now) :=
  rfl

/-- C1: for every signer wallet and every payload field-set, verifying the
token produced by `signES256KJWT` before its expiry yields `valid = true`, and
the verified payload's `iss` equals the signer's DID:PKH string
`did:pkh:eip155:1:<checksummed address>`.  The hypotheses are the contracts of
the external primitives: ethers address validation/checksumming, the
JSON/UTF-8 codec round-trip at the signed header and payload, and ECDSA
public-key recovery succeeding on one of the two recovery ids for this
wallet's signatures. -/
theorem signES256KJWT_verify_roundtrip (env : EthersEnv) (codec : JwtCodec)
    (wallet : Wallet) (nonce : List Char) (payload : SignFields)
    (expirationMinutes now : Int)
    (hA : env.isAddress wallet.address = true)
    (hG : isEthHexAddress (env.getAddress wallet.address) = true)
    (hGA : env.isAddress (env.getAddress wallet.address) = true)
    (hLower : jsToLower (env.getAddress wallet.address) = jsToLower wallet.address)
    (hHdrBytes : ∀ b ∈ codec.encodeHeaderBytes (signedHeader env wallet), b < 256)
    (hHdrNe : codec.encodeHeaderBytes (signedHeader env wallet) ≠ [])
    (hHdrRt : codec.decodeHeaderBytes (codec.encodeHeaderBytes (signedHeader env wallet)) =
      some (signedHeader env wallet))
    (hPayBytes : ∀ b ∈ codec.encodePayloadBytes
      (signedPayload env wallet nonce payload expirationMinutes now), b < 256)
    (hPayNe : codec.encodePayloadBytes
      (signedPayload env wallet nonce payload expirationMinutes now) ≠ [])
    (hPayRt : codec.decodePayloadBytes (codec.encodePayloadBytes
        (signedPayload env wallet nonce payload expirationMinutes now)) =
      some (signedPayload env wallet nonce payload expirationMinutes now))
    (hSigR : ∀ mh, (wallet.signR mh).length = 32)
    (hSigS : ∀ mh, (wallet.signS mh).length = 32)
    (hSigBytes : ∀ mh, ∀ b ∈ wallet.signR mh ++ wallet.signS mh, b < 256)
    (hRecover : ∀ mh, ∃ v, (v = 27 ∨ v = 28) ∧ ∃ rec,
      env.recoverAddress mh ('0' :: 'x' :: bytesToHex (wallet.signR mh),
        '0' :: 'x' :: bytesToHex (wallet.signS mh), v) = some rec ∧
      jsToLower rec = jsToLower wallet.address)
    (hNotExpired : ¬ now + expirationMinutes * 60 < now) :
    signES256KJWT env codec wallet nonce payload expirationMinutes now =
      .ok (signedToken env codec wallet nonce payload expirationMinutes now) ∧
    verifyES256KJWT env codec now
        (signedToken env codec wallet nonce payload expirationMinutes now) =
      .ok (signedHeader env wallet,
        signedPayload env wallet nonce payload expirationMinutes now, true) ∧
    (signedPayload env wallet nonce payload expirationMinutes now).iss =
      didPKHString env wallet.address 1 := by
  refine ⟨?_, ?_, rfl⟩
  · rw [signES256KJWT, createDIDPKH, if_neg (by simp [hA])]
  · have hdot1 : '.' ∉ encodedHeaderOf env codec wallet :=
      dot_not_mem_base64urlEncode _ hHdrBytes
    have hdot2 : '.' ∉ encodedPayloadOf env codec wallet nonce payload expirationMinutes now :=
      dot_not_mem_base64urlEncode _ hPayBytes
    have hdot3 : '.' ∉ base64urlEncode (rawSignatureOf env codec wallet nonce payload expirationMinutes now) :=
      dot_not_mem_base64urlEncode _ (hSigBytes _)
    have hne1 : encodedHeaderOf env codec wallet ≠ [] :=
      base64urlEncode_ne_nil _ hHdrNe
    have hne2 : encodedPayloadOf env codec wallet nonce payload expirationMinutes now ≠ [] :=
      base64urlEncode_ne_nil _ hPayNe
    have hRSlen : (rawSignatureOf env codec wallet nonce payload expirationMinutes now).length = 64 := by
      rw [rawSignatureOf, List.length_append, hSigR _, hSigS _]
    have hne3 : base64urlEncode (rawSignatureOf env codec wallet nonce payload expirationMinutes now) ≠ [] :=
      base64urlEncode_ne_nil _ (by
        intro h
        rw [h] at hRSlen
        simp at hRSlen)
    have hdecH : (base64urlDecode (encodedHeaderOf env codec wallet)).bind
        codec.decodeHeaderBytes = some (signedHeader env wallet) := by
      rw [encodedHeaderOf, base64url_roundtrip _ hHdrBytes, Option.some_bind, hHdrRt]
    have hdecP : (base64urlDecode (encodedPayloadOf env codec wallet nonce payload expirationMinutes now)).bind
        codec.decodePayloadBytes =
        some (signedPayload env wallet nonce payload expirationMinutes now) := by
      rw [encodedPayloadOf, base64url_roundtrip _ hPayBytes, Option.some_bind, hPayRt]
    have hiss : (signedPayload env wallet nonce payload expirationMinutes now).iss =
        didPKHString env wallet.address 1 := rfl
    have hsa : ((jsSplit ':' (signedPayload env wallet nonce payload expirationMinutes now).iss).getLast?).getD [] =
        env.getAddress wallet.address := by
      rw [hiss]
      exact didPKHString_signerAddress env wallet.address 1 hG
    have hchecks := verifyES256KJWT_checks env codec now
      (encodedHeaderOf env codec wallet)
      (encodedPayloadOf env codec wallet nonce payload expirationMinutes now)
      (base64urlEncode (rawSignatureOf env codec wallet nonce payload expirationMinutes now))
      (signedHeader env wallet)
      (signedPayload env wallet nonce payload expirationMinutes now)
      (env.getAddress wallet.address)
      hdot1 hdot2 hdot3 hne1 hne2 hne3 hdecH hdecP rfl
      (by rw [hiss]; exact didPKHString_hasPrefix env wallet.address 1) rfl
      hsa (isEthHexAddress_ne_nil hG) hGA
    have hver := hchecks.2 hNotExpired
      (rawSignatureOf env codec wallet nonce payload expirationMinutes now)
      (base64url_roundtrip _ (hSigBytes _)) hRSlen
    rw [signedToken_eq, hver]
    have hmh : messageHashOf env codec wallet nonce payload expirationMinutes now =
        env.keccak256 (encodedHeaderOf env codec wallet ++ '.' ::
          encodedPayloadOf env codec wallet nonce payload expirationMinutes now) := rfl
    rw [← hmh]
    have htake : (rawSignatureOf env codec wallet nonce payload expirationMinutes now).take 32 =
        wallet.signR (messageHashOf env codec wallet nonce payload expirationMinutes now) := by
      rw [rawSignatureOf]
      exact List.take_left' (hSigR _)
    have hdrop : (rawSignatureOf env codec wallet nonce payload expirationMinutes now).drop 32 =
        wallet.signS (messageHashOf env codec wallet nonce payload expirationMinutes now) := by
      rw [rawSignatureOf]
      exact List.drop_left' (hSigR _)
    rw [htake, hdrop]
    obtain ⟨v, hv, rec, hrec, hlow⟩ :=
      hRecover (messageHashOf env codec wallet nonce payload expirationMinutes now)
    have hlow2 : jsToLower rec = jsToLower (env.getAddress wallet.address) := by
      rw [hlow, hLower]
    rcases hv with rfl | rfl
    · have h27 : tryRecover env
          (messageHashOf env codec wallet nonce payload expirationMinutes now)
          ('0' :: 'x' :: bytesToHex (wallet.signR (messageHashOf env codec wallet nonce payload expirationMinutes now)))
          ('0' :: 'x' :: bytesToHex (wallet.signS (messageHashOf env codec wallet nonce payload expirationMinutes now)))
          (env.getAddress wallet.address) 27 = true := by
        rw [tryRecover, hrec]
        simp [hlow2]
      rw [h27]
      simp
    · have h28 : tryRecover env
          (messageHashOf env codec wallet nonce payload expirationMinutes now)
          ('0' :: 'x' :: bytesToHex (wallet.signR (messageHashOf env codec wallet nonce payload expirationMinutes now)))
          ('0' :: 'x' :: bytesToHex (wallet.signS (messageHashOf env codec wallet nonce payload expirationMinutes now)))
          (env.getAddress wallet.address) 28 = true := by
        rw [tryRecover, hrec]
        simp [hlow2]
      rw [h28]
      simp

def wWallet : Wallet where
  address := wAddr
  signR := fun _ => List.replicate 32 1
  signS := fun _ => List.replicate 32 2

def wEthersEnvC1 : EthersEnv where
  isAddress := isEthHexAddress
  getAddress := id
  keccak256 := fun _ => "0xhash".toList
  recoverAddress := fun _ _ => some wAddr

def wFields : SignFields where
  aud := "lit-protocol-encryption".toList
  purpose := "encrypt".toList
  resource := "credential-gated-secret".toList
  credential_requirements := none

def wNonce : List Char := "nonce".toList

def wCodecC1 : JwtCodec where
  encodeHeaderBytes := fun _ => [0]
  decodeHeaderBytes := fun _ => some (signedHeader wEthersEnvC1 wWallet)
  encodePayloadBytes := fun _ => [1]
  decodePayloadBytes := fun _ => some (signedPayload wEthersEnvC1 wWallet wNonce wFields 5 100)

/-- Witness for C1 at a concrete wallet, payload, and environment. -/
theorem signES256KJWT_verify_roundtrip_witness :
    signES256KJWT wEthersEnvC1 wCodecC1 wWallet wNonce wFields 5 100 =
      .ok (signedToken wEthersEnvC1 wCodecC1 wWallet wNonce wFields 5 100) ∧
    verifyES256KJWT wEthersEnvC1 wCodecC1 100
        (signedToken wEthersEnvC1 wCodecC1 wWallet wNonce wFields 5 100) =
      .ok (signedHeader wEthersEnvC1 wWallet,
        signedPayload wEthersEnvC1 wWallet wNonce wFields 5 100, true) ∧
    (signedPayload wEthersEnvC1 wWallet wNonce wFields 5 100).iss =
      didPKHString wEthersEnvC1 wWallet.address 1 :=
  signES256KJWT_verify_roundtrip wEthersEnvC1 wCodecC1 wWallet wNonce wFields 5 100
    (by decide) (by decide) (by decide) rfl
    (by decide) (by decide) rfl
    (by decide) (by decide) rfl
    (by intro mh; simp [wWallet]) (by intro mh; simp [wWallet])
    (by intro mh b hb; simp [wWallet] at hb; omega)
    (fun _ => ⟨27, Or.inl rfl, wAddr, rfl, rfl⟩)
    (by omega)

/-! ### EdDSA credential verifier (`src/litActionEnhanced.ts`)

`fetch`, `crypto.subtle.importKey` / `crypto.subtle.verify` and the
JSON parsing of the fetched document and of the credential token are platform
capabilities, modelled as the `EdDSAEnv` oracle. -/

structure CredJWTHeader where
  alg : List Char
  kid : Option (List Char)
  deriving DecidableEq

structure VCEvidence where
  handle : Option (List Char)
  deriving DecidableEq

structure VCSubject where
  id : Option (List Char)
  deriving DecidableEq

structure VerifiableCredential where
  type : Option (List (List Char))
  credentialSubject : Option VCSubject
  evidence : Option VCEvidence
  issuanceDate : List Char
  deriving DecidableEq

structure CredJWTPayload where
  iss : List Char
  sub : List Char
  vc : Option VerifiableCredential
  exp : Option Int
  nbf : Option Int
  deriving DecidableEq

structure Jwk where
  material : List Char
  deriving DecidableEq

structure VerificationMethod where
  id : List Char
  type : List Char
  publicKeyJwk : Option Jwk
  deriving DecidableEq

structure DIDDocument where
  verificationMethod : Option (List VerificationMethod)
  deriving DecidableEq

structure FetchResponse where
  ok : Bool
  status : Nat
  json : Option DIDDocument
  deriving DecidableEq

structure EdDSAEnv where
  fetch : List Char → FetchResponse
  decodeCredHeader : List Nat → Option CredJWTHeader
  decodeCredPayload : List Nat → Option CredJWTPayload
  importKey : Jwk → Option Jwk
  subtleVerify : Jwk → List Nat → List Char → Bool

/-- `resolveDIDWeb(did)`. -/
def resolveDIDWeb (eenv : EdDSAEnv) (did : List Char) : Except (List Char) DIDDocument :=
  let domain := replaceFirst ("did:web:".toList) [] did
  let url := "https://".toList ++ domain ++ "/.well-known/did.json".toList
  let response := eenv.fetch url
  if !response.ok then
    .error ("Failed to fetch DID document: ".toList ++ natToDec response.status)
  else
    match response.json with
    | none => .error "SyntaxError".toList
    | some doc => .ok doc

/-- The loop condition of `extractPublicKey` that causes a method to be
returned: id matches (exactly or by `#controller` suffix), Ed25519 type, and
a present `publicKeyJwk`. -/
def vmMatches (keyId : List Char) (m : VerificationMethod) : Bool :=
  (m.id == keyId || ("#controller".toList).isSuffixOf m.id) &&
    m.type == "Ed25519VerificationKey2018".toList && m.publicKeyJwk.isSome

/-- `extractPublicKey(didDocument, keyId)`. -/
def extractPublicKey (doc : DIDDocument) (keyId : List Char) : Except (List Char) Jwk :=
  match (doc.verificationMethod.getD []).find? (vmMatches keyId) with
  | some m =>
    match m.publicKeyJwk with
    | some jwk => .ok jwk
    | none => .error ("Key ".toList ++ keyId ++ " not found in DID document".toList)
  | none => .error ("Key ".toList ++ keyId ++ " not found in DID document".toList)

/-- `header.kid || issuerDID + '#controller'` (JS truthiness: an empty kid is
falsy). -/
def keyIdOf (header : CredJWTHeader) (issuerDID : List Char) : List Char :=
  match header.kid with
  | some k => if k ≠ [] then k else issuerDID ++ "#controller".toList
  | none => issuerDID ++ "#controller".toList

/-- `payload.exp && payload.exp < now` (JS truthiness: `exp === 0` skips). -/
def credExpElapsed (payload : CredJWTPayload) (now : Int) : Bool :=
  match payload.exp with
  | some e => decide (e ≠ 0) && decide (e < now)
  | none => false

/-- `payload.nbf && payload.nbf > now`. -/
def credNbfFuture (payload : CredJWTPayload) (now : Int) : Bool :=
  match payload.nbf with
  | some b => decide (b ≠ 0) && decide (b > now)
  | none => false

structure EdDSAResult where
  valid : Bool
  payload : CredJWTPayload
  header : CredJWTHeader
  issuer : List Char
  deriving DecidableEq

/-- `verifyJWTWithEdDSA(jwt, issuerDID)`. -/
def verifyJWTWithEdDSA (eenv : EdDSAEnv) (now : Int) (jwt issuerDID : List Char) :
    Except (List Char) EdDSAResult :=
  let segs := jsSplit '.' jwt
  let headerB64 := segs.getD 0 []
  let payloadB64 := segs.getD 1 []
  let signatureB64 := segs.getD 2 []
  match base64urlDecode headerB64 with
  | none => .error "InvalidCharacterError".toList
  | some hb =>
    match eenv.decodeCredHeader hb with
    | none => .error "SyntaxError".toList
    | some header =>
      match base64urlDecode payloadB64 with
      | none => .error "InvalidCharacterError".toList
      | some pb =>
        match eenv.decodeCredPayload pb with
        | none => .error "SyntaxError".toList
        | some payload =>
          if header.alg ≠ "EdDSA".toList then
            .error "Unsupported algorithm".toList
          else
            match resolveDIDWeb eenv issuerDID with
            | .error e => .error e
            | .ok didDocument =>
              match extractPublicKey didDocument (keyIdOf header issuerDID) with
              | .error e => .error e
              | .ok publicKeyJwk =>
                match eenv.importKey publicKeyJwk with
                | none => .error "DataError".toList
                | some publicKey =>
                  match base64urlDecode signatureB64 with
                  | none => .error "InvalidCharacterError".toList
                  | some signature =>
                    if eenv.subtleVerify publicKey signature
                        (headerB64 ++ '.' :: payloadB64) = false then
                      .error "Invalid JWT signature".toList
                    else if credExpElapsed payload now then
                      .error "JWT expired".toList
                    else if credNbfFuture payload now then
                      .error "JWT not yet valid".toList
                    else
                      .ok { valid := true, payload := payload, header := header,
                            issuer := payload.iss }

/-- Control-flow skeleton of `verifyJWTWithEdDSA` after a successful signature
check: the result is decided by the two temporal checks. -/
theorem verifyJWTWithEdDSA_claims_path (eenv : EdDSAEnv) (now : Int)
    (hB pB sB issuerDID : List Char) (header : CredJWTHeader)
    (payload : CredJWTPayload) (doc : DIDDocument) (jwk pk : Jwk) (sig : List Nat)
    (hd1 : '.' ∉ hB) (hd2 : '.' ∉ pB) (hd3 : '.' ∉ sB)
    (hdecH : (base64urlDecode hB).bind eenv.decodeCredHeader = some header)
    (hdecP : (base64urlDecode pB).bind eenv.decodeCredPayload = some payload)
    (halg : header.alg = "EdDSA".toList)
    (hres : resolveDIDWeb eenv issuerDID = .ok doc)
    (hkey : extractPublicKey doc (keyIdOf header issuerDID) = .ok jwk)
    (himp : eenv.importKey jwk = some pk)
    (hsig : base64urlDecode sB = some sig)
    (hver : eenv.subtleVerify pk sig (hB ++ '.' :: pB) = true) :
    verifyJWTWithEdDSA eenv now ((hB ++ '.' :: pB) ++ '.' :: sB) issuerDID =
      (if credExpElapsed payload now then .error ("JWT expired".toList)
       else if credNbfFuture payload now then .error ("JWT not yet valid".toList)
       else .ok { valid := true, payload := payload, header := header,
                  issuer := payload.iss }) := by
  have hsplit := jsSplit_token hB pB sB hd1 hd2 hd3
  have g0 : ([hB, pB, sB] : List (List Char)).getD 0 [] = hB := rfl
  have g1 : ([hB, pB, sB] : List (List Char)).getD 1 [] = pB := rfl
  have g2 : ([hB, pB, sB] : List (List Char)).getD 2 [] = sB := rfl
  rcases hdH : base64urlDecode hB with _ | hb
  · rw [hdH] at hdecH
    simp at hdecH
  rcases hdP : base64urlDecode pB with _ | pb
  · rw [hdP] at hdecP
    simp at hdecP
  rw [hdH] at hdecH
  rw [hdP] at hdecP
  simp only [Option.some_bind] at hdecH hdecP
  simp only [verifyJWTWithEdDSA, hsplit, g0, g1, g2]
  rw [hdH]
  simp only [hdecH]
  rw [hdP]
  simp only [hdecP]
  rw [if_neg (by simp [halg])]
  rw [hres]
  simp only [hkey]
  simp only [himp]
  rw [hsig]
  simp only [hver]
  rw [if_neg (by simp)]

/-- C4: expiry handling is asymmetric between the two verifiers.  For every
well-formed ES256K token (three segments, alg `ES256K`, valid `iss` DID with
`iss = sub`) whose `exp` is strictly below the current time, `verifyES256KJWT`
returns `valid = false` without throwing; whereas `verifyJWTWithEdDSA`, after
a successful signature check, throws `JWT expired` when a (non-zero) `exp`
has elapsed and `JWT not yet valid` when a (non-zero) `nbf` is still in the
future. -/
theorem verify_expiry_asymmetry
    (env : EthersEnv) (codec : JwtCodec) (now : Int)
    (eh ep es : List Char) (header : ES256KJWTHeader) (payload : ES256KJWTPayload)
    (saddr : List Char)
    (hd1 : '.' ∉ eh) (hd2 : '.' ∉ ep) (hd3 : '.' ∉ es)
    (hne1 : eh ≠ []) (hne2 : ep ≠ []) (hne3 : es ≠ [])
    (hbH : (base64urlDecode eh).bind codec.decodeHeaderBytes = some header)
    (hbP : (base64urlDecode ep).bind codec.decodePayloadBytes = some payload)
    (halg : header.alg = "ES256K".toList)
    (hpre : ("did:pkh:eip155:".toList).isPrefixOf payload.iss = true)
    (hsub : payload.iss = payload.sub)
    (hsa : ((jsSplit ':' payload.iss).getLast?).getD [] = saddr)
    (hsane : saddr ≠ [])
    (hsaaddr : env.isAddress saddr = true)
    (eenv : EdDSAEnv) (now2 : Int)
    (hB pB sB issuerDID : List Char) (header2 : CredJWTHeader)
    (payload2 : CredJWTPayload) (doc : DIDDocument) (jwk pk : Jwk) (sig : List Nat)
    (hd4 : '.' ∉ hB) (hd5 : '.' ∉ pB) (hd6 : '.' ∉ sB)
    (hdecH : (base64urlDecode hB).bind eenv.decodeCredHeader = some header2)
    (hdecP : (base64urlDecode pB).bind eenv.decodeCredPayload = some payload2)
    (halg2 : header2.alg = "EdDSA".toList)
    (hres : resolveDIDWeb eenv issuerDID = .ok doc)
    (hkey : extractPublicKey doc (keyIdOf header2 issuerDID) = .ok jwk)
    (himp : eenv.importKey jwk = some pk)
    (hsig : base64urlDecode sB = some sig)
    (hver : eenv.subtleVerify pk sig (hB ++ '.' :: pB) = true) :
    (payload.exp < now →
      verifyES256KJWT env codec now ((eh ++ '.' :: ep) ++ '.' :: es) =
        .ok (header, payload, false)) ∧
    (credExpElapsed payload2 now2 = true →
      verifyJWTWithEdDSA eenv now2 ((hB ++ '.' :: pB) ++ '.' :: sB) issuerDID =
        .error ("JWT expired".toList)) ∧
    (credExpElapsed payload2 now2 = false → credNbfFuture payload2 now2 = true →
      verifyJWTWithEdDSA eenv now2 ((hB ++ '.' :: pB) ++ '.' :: sB) issuerDID =
        .error ("JWT not yet valid".toList)) := by
  have hpath := verifyJWTWithEdDSA_claims_path eenv now2 hB pB sB issuerDID header2
    payload2 doc jwk pk sig hd4 hd5 hd6 hdecH hdecP halg2 hres hkey himp hsig hver
  refine ⟨?_, ?_, ?_⟩
  · exact (verifyES256KJWT_checks env codec now eh ep es header payload saddr
      hd1 hd2 hd3 hne1 hne2 hne3 hbH hbP halg hpre hsub hsa hsane hsaaddr).1
  · intro hexp
    rw [hpath, if_pos hexp]
  · intro hexp hnbf
    rw [hpath, if_neg (by simp [hexp]), if_pos hnbf]

def wPayloadExpired : ES256KJWTPayload :=
  signedPayload wEthersEnvC1 wWallet wNonce wFields (-1) 100

def wCodecC4 : JwtCodec where
  encodeHeaderBytes := fun _ => [0]
  decodeHeaderBytes := fun _ => some (signedHeader wEthersEnvC1 wWallet)
  encodePayloadBytes := fun _ => [1]
  decodePayloadBytes := fun _ => some wPayloadExpired

def wSegA : List Char := base64urlEncode [0]

def wSegB : List Char := base64urlEncode [1]

def wSegC : List Char := base64urlEncode [2]

def wIssuerDID : List Char := "did:web:issuer.example".toList

def wCredHeader : CredJWTHeader where
  alg := "EdDSA".toList
  kid := none

def wDoc : DIDDocument where
  verificationMethod := some
    [{ id := "did:web:issuer.example#controller".toList,
       type := "Ed25519VerificationKey2018".toList,
       publicKeyJwk := some ⟨"k".toList⟩ }]

def wCredPayloadExp : CredJWTPayload where
  iss := "did:web:issuer.example".toList
  sub := "did:pkh:eip155:1:0xab".toList
  vc := none
  exp := some 50
  nbf := none

def wCredPayloadNbf : CredJWTPayload where
  iss := "did:web:issuer.example".toList
  sub := "did:pkh:eip155:1:0xab".toList
  vc := none
  exp := none
  nbf := some 200

def wEdDSAEnv : EdDSAEnv where
  fetch := fun _ => { ok := true, status := 200, json := some wDoc }
  decodeCredHeader := fun _ => some wCredHeader
  decodeCredPayload := fun bs => if bs = [0] then some wCredPayloadExp else some wCredPayloadNbf
  importKey := fun j => some j
  subtleVerify := fun _ _ _ => true

/-- Witness for C4: an expired ES256K token (signed with `ttlMinutes = -1`)
verifies to `valid = false` without an error, while concrete EdDSA credential
tokens with an elapsed `exp` / future `nbf` produce hard errors. -/
theorem verify_expiry_asymmetry_witness :
    verifyES256KJWT wEthersEnvC1 wCodecC4 100 ((wSegA ++ '.' :: wSegB) ++ '.' :: wSegC) =
      .ok (signedHeader wEthersEnvC1 wWallet, wPayloadExpired, false) ∧
    verifyJWTWithEdDSA wEdDSAEnv 100 ((wSegA ++ '.' :: wSegA) ++ '.' :: wSegC) wIssuerDID =
      .error ("JWT expired".toList) ∧
    verifyJWTWithEdDSA wEdDSAEnv 100 ((wSegA ++ '.' :: wSegB) ++ '.' :: wSegC) wIssuerDID =
      .error ("JWT not yet valid".toList) := by
  refine ⟨?_, ?_, ?_⟩
  · exact (verify_expiry_asymmetry wEthersEnvC1 wCodecC4 100 wSegA wSegB wSegC
      (signedHeader wEthersEnvC1 wWallet) wPayloadExpired wAddr
      (by decide) (by decide) (by decide) (by decide) (by decide) (by decide)
      (by decide) (by decide) (by decide) (by decide) (by decide) (by decide)
      (by decide) (by decide)
      wEdDSAEnv 100 wSegA wSegA wSegC wIssuerDID wCredHeader wCredPayloadExp
      wDoc ⟨"k".toList⟩ ⟨"k".toList⟩ [2]
      (by decide) (by decide) (by decide) (by decide) (by decide) (by decide)
      (by decide) (by decide) (by decide) (by decide) (by decide)).1 (by decide)
  · exact (verify_expiry_asymmetry wEthersEnvC1 wCodecC4 100 wSegA wSegB wSegC
      (signedHeader wEthersEnvC1 wWallet) wPayloadExpired wAddr
      (by decide) (by decide) (by decide) (by decide) (by decide) (by decide)
      (by decide) (by decide) (by decide) (by decide) (by decide) (by decide)
      (by decide) (by decide)
      wEdDSAEnv 100 wSegA wSegA wSegC wIssuerDID wCredHeader wCredPayloadExp
      wDoc ⟨"k".toList⟩ ⟨"k".toList⟩ [2]
      (by decide) (by decide) (by decide) (by decide) (by decide) (by decide)
      (by decide) (by decide) (by decide) (by decide) (by decide)).2.1 (by decide)
  · exact (verify_expiry_asymmetry wEthersEnvC1 wCodecC4 100 wSegA wSegB wSegC
      (signedHeader wEthersEnvC1 wWallet) wPayloadExpired wAddr
      (by decide) (by decide) (by decide) (by decide) (by decide) (by decide)
      (by decide) (by decide) (by decide) (by decide) (by decide) (by decide)
      (by decide) (by decide)
      wEdDSAEnv 100 wSegA wSegB wSegC wIssuerDID wCredHeader wCredPayloadNbf
      wDoc ⟨"k".toList⟩ ⟨"k".toList⟩ [2]
      (by decide) (by decide) (by decide) (by decide) (by decide) (by decide)
      (by decide) (by decide) (by decide) (by decide) (by decide)).2.2
      (by decide) (by decide)

/-! ### Enhanced Lit Action (`src/litActionEnhanced.ts`, `_litActionCodeWithES256K`)

`Lit.Actions.decryptAndCombine` is the external decrypt capability; its
invocation is recorded as an event in the returned trace. -/

/-- The Lit-Action-side `verifyES256KJWT(jwt, expectedAddress)`: same framing
as the browser verifier but bound to an expected address, and with hard
failures for expiry and an unrecoverable signature. -/
def verifyES256KJWTAction (env : EthersEnv) (codec : JwtCodec) (now : Int)
    (jwt expectedAddress : List Char) :
    Except (List Char) (ES256KJWTHeader × ES256KJWTPayload) :=
  let segs := jsSplit '.' jwt
  let encodedHeader := segs.getD 0 []
  let encodedPayload := segs.getD 1 []
  let encodedSignature := segs.getD 2 []
  if encodedHeader = [] ∨ encodedPayload = [] ∨ encodedSignature = [] then
    .error "Invalid JWT format".toList
  else
    match base64urlDecode encodedHeader with
    | none => .error "InvalidCharacterError".toList
    | some hb =>
      match codec.decodeHeaderBytes hb with
      | none => .error "SyntaxError".toList
      | some header =>
        match base64urlDecode encodedPayload with
        | none => .error "InvalidCharacterError".toList
        | some pb =>
          match codec.decodePayloadBytes pb with
          | none => .error "SyntaxError".toList
          | some payload =>
            if header.alg ≠ "ES256K".toList then
              .error ("Unsupported algorithm: ".toList ++ header.alg)
            else if ("did:pkh:eip155:".toList).isPrefixOf payload.iss = false ∨
                payload.iss ≠ payload.sub then
              .error "Invalid DID format in JWT".toList
            else
              let signerAddress := ((jsSplit ':' payload.iss).getLast?).getD []
              if jsToLower signerAddress ≠ jsToLower expectedAddress then
                .error "JWT signer does not match expected address".toList
              else if payload.exp < now then
                .error "JWT expired".toList
              else
                let messageHash := env.keccak256 (encodedHeader ++ '.' :: encodedPayload)
                match base64urlDecode encodedSignature with
                | none => .error "InvalidCharacterError".toList
                | some rawSignature =>
                  if rawSignature.length ≠ 64 then
                    .error "Invalid signature length".toList
                  else
                    let r := '0' :: 'x' :: bytesToHex (rawSignature.take 32)
                    let s := '0' :: 'x' :: bytesToHex (rawSignature.drop 32)
                    if tryRecover env messageHash r s expectedAddress 27 ||
                        tryRecover env messageHash r s expectedAddress 28 then
                      .ok (header, payload)
                    else
                      .error "Invalid JWT signature".toList

/-- `${requirements.claims.githubHandle}` in the failure message (a JS array
stringifies as comma-joined). -/
def displayHandleSpec : GithubHandleSpec → List Char
  | .one s => s
  | .many l => jsJoin [','] l

/-- `${handle}` in the failure message (`undefined` when evidence or handle is
missing). -/
def displayFoundHandle : Option (List Char) → List Char
  | some h => h
  | none => "undefined".toList

/-- The handle clause of the Lit Action's `validateCredentialClaims`. -/
def actionHandleFails (reqs : CredentialRequirements) (vc : VerifiableCredential) : Bool :=
  match reqs.claims.bind (·.githubHandle) with
  | some spec =>
    githubHandleSpecTruthy spec &&
      !(match vc.evidence.bind (·.handle) with
        | some h => !h.isEmpty && (handleList spec).contains h
        | none => false)
  | none => false

/-- The issuance-age clause of the Lit Action's `validateCredentialClaims`. -/
def actionAgeFails (dateParse : List Char → Int) (nowMs : Int)
    (reqs : CredentialRequirements) (vc : VerifiableCredential) : Bool :=
  match reqs.claims.bind (·.minIssuanceAge) with
  | some age => decide (age ≠ 0) && decide (dateParse vc.issuanceDate < nowMs - age * 1000)
  | none => false

/-- `validateCredentialClaims(jwtPayload, requirements, userAddress)`. -/
def validateCredentialClaims (dateParse : List Char → Int) (nowMs : Int)
    (jwtPayload : CredJWTPayload) (reqs : CredentialRequirements)
    (userAddress : List Char) : Except (List Char) Unit :=
  match jwtPayload.vc with
  | none => .error "No verifiable credential found in JWT".toList
  | some vc =>
    if (vc.type.getD []).contains reqs.credentialType = false then
      .error ("Required credential type ".toList ++ reqs.credentialType ++
        " not found".toList)
    else if jwtPayload.iss ≠ reqs.issuer then
      .error "Credential issuer does not match requirements".toList
    else
      match vc.credentialSubject with
      | none => .error "No credential subject found".toList
      | some cs =>
        match cs.id with
        | none => .error "No credential subject found".toList
        | some csid =>
          if csid = [] then .error "No credential subject found".toList
          else
            let subjectAddress := ((jsSplit ':' csid).getLast?).getD []
            if jsToLower subjectAddress ≠ jsToLower userAddress then
              .error "Credential subject does not match user address".toList
            else if actionHandleFails reqs vc then
              .error ("GitHub handle requirement not met. Required: ".toList ++
                displayHandleSpec ((reqs.claims.bind (·.githubHandle)).getD (.one [])) ++
                ", Found: ".toList ++ displayFoundHandle (vc.evidence.bind (·.handle)))
            else if actionAgeFails dateParse nowMs reqs vc then
              .error "Credential is too old".toList
            else
              .ok ()

inductive LAEvent where
  | litDecrypt
  deriving DecidableEq

structure ActionResponse where
  success : Bool
  secret : Option (List Char)
  error : Option (List Char)
  errorType : Option (List Char)
  deriving DecidableEq

structure JsParams where
  ciphertext : List Char
  dataToEncryptHash : List Char
  credentialJWT : List Char
  credentialRequirements : CredentialRequirements
  userAddress : List Char
  userSignedJWT : List Char
  operationPurpose : List Char
  deriving DecidableEq

/-- The `errorType` classification in the catch handler. -/
def classifyError (e : List Char) : List Char :=
  if jsIncludes e ("ES256K".toList) then "user_jwt_verification".toList
  else if jsIncludes e ("GitHub".toList) then "github_credential_verification".toList
  else if jsIncludes e ("decrypt".toList) then "decryption_error".toList
  else "general_error".toList

/-- The try-block of the enhanced Lit Action: steps 1-7, returning the secret
or the thrown message, together with the external-capability trace.
`stringifyReqs` models `JSON.stringify` on a requirements object,
`decryptAndCombine` the `Lit.Actions.decryptAndCombine` capability. -/
def litActionCore (env : EthersEnv) (codec : JwtCodec) (eenv : EdDSAEnv)
    (stringifyReqs : CredentialRequirements → List Char)
    (decryptAndCombine : Unit → List Char) (dateParse : List Char → Int)
    (now nowMs : Int) (p : JsParams) :
    Except (List Char) (List Char) × List LAEvent :=
  match verifyES256KJWTAction env codec now p.userSignedJWT p.userAddress with
  | .error e => (.error e, [])
  | .ok (_, payload) =>
    if payload.purpose ≠ p.operationPurpose then
      (.error ("JWT purpose mismatch. Expected: ".toList ++ p.operationPurpose ++
        ", Got: ".toList ++ payload.purpose), [])
    else if payload.credential_requirements.map stringifyReqs ≠
        some (stringifyReqs p.credentialRequirements) then
      (.error "JWT credential requirements do not match operation requirements".toList, [])
    else if payload.aud ≠ "lit-protocol-encryption".toList then
      (.error ("Invalid JWT audience: ".toList ++ payload.aud), [])
    else
      match verifyJWTWithEdDSA eenv now p.credentialJWT p.credentialRequirements.issuer with
      | .error e => (.error e, [])
      | .ok vres =>
        match validateCredentialClaims dateParse nowMs vres.payload
            p.credentialRequirements p.userAddress with
        | .error e => (.error e, [])
        | .ok _ => (.ok (decryptAndCombine ()), [LAEvent.litDecrypt])

/-- The whole Lit Action run: the try-block wrapped in the catch handler that
sets the failure response. -/
def litActionMain (env : EthersEnv) (codec : JwtCodec) (eenv : EdDSAEnv)
    (stringifyReqs : CredentialRequirements → List Char)
    (decryptAndCombine : Unit → List Char) (dateParse : List Char → Int)
    (now nowMs : Int) (p : JsParams) : ActionResponse × List LAEvent :=
  match litActionCore env codec eenv stringifyReqs decryptAndCombine dateParse now nowMs p with
  | (.ok secret, evs) =>
    ({ success := true, secret := some secret, error := none, errorType := none }, evs)
  | (.error e, evs) =>
    ({ success := false, secret := none, error := some e,
       errorType := some (classifyError e) }, evs)

/-- C8: whenever the verified user token's `purpose` differs from the
`operationPurpose` parameter, the enhanced Lit Action raises a
purpose-mismatch error and `Lit.Actions.decryptAndCombine` is never invoked
in that run. -/
theorem litAction_purpose_mismatch (env : EthersEnv) (codec : JwtCodec)
    (eenv : EdDSAEnv) (stringifyReqs : CredentialRequirements → List Char)
    (decryptAndCombine : Unit → List Char) (dateParse : List Char → Int)
    (now nowMs : Int) (p : JsParams)
    (header : ES256KJWTHeader) (payload : ES256KJWTPayload)
    (hverify : verifyES256KJWTAction env codec now p.userSignedJWT p.userAddress =
      .ok (header, payload))
    (hpurpose : payload.purpose ≠ p.operationPurpose) :
    litActionMain env codec eenv stringifyReqs decryptAndCombine dateParse now nowMs p =
      ({ success := false, secret := none,
         error := some ("JWT purpose mismatch. Expected: ".toList ++
           p.operationPurpose ++ ", Got: ".toList ++ payload.purpose),
         errorType := some (classifyError ("JWT purpose mismatch. Expected: ".toList ++
           p.operationPurpose ++ ", Got: ".toList ++ payload.purpose)) }, []) ∧
    LAEvent.litDecrypt ∉
      (litActionMain env codec eenv stringifyReqs decryptAndCombine dateParse now nowMs p).2 := by
  have hcore : litActionCore env codec eenv stringifyReqs decryptAndCombine dateParse now nowMs p =
      (.error ("JWT purpose mismatch. Expected: ".toList ++ p.operationPurpose ++
        ", Got: ".toList ++ payload.purpose), []) := by
    rw [litActionCore, hverify]
    simp only [if_pos hpurpose]
  constructor
  · rw [litActionMain, hcore]
  · rw [litActionMain, hcore]
    simp

def wPayloadC8 : ES256KJWTPayload where
  iss := didPKHString wEthersEnvC1 wWallet.address 1
  sub := didPKHString wEthersEnvC1 wWallet.address 1
  aud := "lit-protocol-encryption".toList
  exp := 200
  iat := 0
  nonce := wNonce
  purpose := "encrypt".toList
  resource := "credential-gated-secret".toList
  credential_requirements := some c7Reqs

def wCodecC8 : JwtCodec where
  encodeHeaderBytes := fun _ => [0]
  decodeHeaderBytes := fun _ => some (signedHeader wEthersEnvC1 wWallet)
  encodePayloadBytes := fun _ => [1]
  decodePayloadBytes := fun _ => some wPayloadC8

def wSig64 : List Char := base64urlEncode (List.replicate 64 0)

def wParamsC8 : JsParams where
  ciphertext := "ct".toList
  dataToEncryptHash := "h".toList
  credentialJWT := "c.j.w".toList
  credentialRequirements := c7Reqs
  userAddress := wAddr
  userSignedJWT := (wSegA ++ '.' :: wSegB) ++ '.' :: wSig64
  operationPurpose := "decrypt".toList

def wStringify : CredentialRequirements → List Char := fun _ => "R".toList

def wDecryptCap : Unit → List Char := fun _ => "secret".toList

/-- Witness for C8: a token minted with purpose `encrypt`, presented to a run
expecting `decrypt`, yields the purpose-mismatch failure response and no
decrypt invocation. -/
theorem litAction_purpose_mismatch_witness :
    litActionMain wEthersEnvC1 wCodecC8 wEdDSAEnv wStringify wDecryptCap c5DateNow
        100 0 wParamsC8 =
      ({ success := false, secret := none,
         error := some ("JWT purpose mismatch. Expected: ".toList ++
           wParamsC8.operationPurpose ++ ", Got: ".toList ++ wPayloadC8.purpose),
         errorType := some (classifyError ("JWT purpose mismatch. Expected: ".toList ++
           wParamsC8.operationPurpose ++ ", Got: ".toList ++ wPayloadC8.purpose)) }, []) ∧
    LAEvent.litDecrypt ∉
      (litActionMain wEthersEnvC1 wCodecC8 wEdDSAEnv wStringify wDecryptCap c5DateNow
        100 0 wParamsC8).2 :=
  litAction_purpose_mismatch wEthersEnvC1 wCodecC8 wEdDSAEnv wStringify wDecryptCap
    c5DateNow 100 0 wParamsC8 (signedHeader wEthersEnvC1 wWallet) wPayloadC8
    (by decide) (by decide)

/-! ### Wallet-based decrypt orchestrator (`packages/browser/src/index.ts`,
wallet variant)

The Lit network interaction (connect, capacity credits, session signatures,
`executeJs`) is the external capability `LitEnv`; the trace records the
workflow steps that run after the binding checks. -/

/-- `loadCredentials(credentials)`: identity in the browser package. -/
def loadCredentials (credentials : List ParsedCredential) : List ParsedCredential :=
  credentials

inductive WEvent where
  | mintDecryptJWT
  | findCredential
  | litExecute
  deriving DecidableEq

structure LitEnv where
  executeJs : List Char → List Char → List Char

structure EncryptedData where
  ciphertext : List Char
  dataToEncryptHash : List Char
  accessControlConditions : List Char
  accsResourceString : List Char
  credentialRequirements : CredentialRequirements
  userSignedJWT : List Char
  userAddress : List Char
  deriving DecidableEq

/-- `decryptFromCredentialsWithJWT(encryptedData, userWallet, userCredentials)` —
the wallet variant. -/
def decryptFromCredentialsWithJWTWallet (env : EthersEnv) (codec : JwtCodec)
    (lit : LitEnv) (dateParse : List Char → Int) (nowMs now : Int)
    (nonce : List Char) (encryptedData : EncryptedData) (userWallet : Wallet)
    (userCredentials : List ParsedCredential) :
    Except (List Char) (List Char) × List WEvent :=
  if jsToLower userWallet.address ≠ jsToLower encryptedData.userAddress then
    (.error "User wallet does not match the encrypted data owner".toList, [])
  else if validateJWTUserAddress env codec encryptedData.userSignedJWT
      userWallet.address = false then
    (.error "Stored user JWT does not match user address".toList, [])
  else
    match createDecryptionJWT env codec userWallet nonce
        encryptedData.credentialRequirements now with
    | .error e => (.error e, [])
    | .ok decryptionJWT =>
      match findMatchingCredential dateParse nowMs (loadCredentials userCredentials)
          encryptedData.credentialRequirements userWallet.address with
      | none =>
        (.error "No matching credential found for the specified requirements".toList,
         [WEvent.mintDecryptJWT, WEvent.findCredential])
      | some matchingCredential =>
        (.ok (lit.executeJs matchingCredential.jwt decryptionJWT),
         [WEvent.mintDecryptJWT, WEvent.findCredential, WEvent.litExecute])

/-- C2: when the acting wallet's address differs (case-insensitively) from
`bundle.userAddress`, the wallet-based decrypt throws the address-mismatch
error, and no fresh decryption token is minted, no credential matching
happens, and the external decrypt capability is never invoked. -/
theorem decryptWallet_address_mismatch (env : EthersEnv) (codec : JwtCodec)
    (lit : LitEnv) (dateParse : List Char → Int) (nowMs now : Int)
    (nonce : List Char) (encryptedData : EncryptedData) (userWallet : Wallet)
    (userCredentials : List ParsedCredential)
    (h : jsToLower userWallet.address ≠ jsToLower encryptedData.userAddress) :
    decryptFromCredentialsWithJWTWallet env codec lit dateParse nowMs now nonce
        encryptedData userWallet userCredentials =
      (.error "User wallet does not match the encrypted data owner".toList, []) ∧
    WEvent.mintDecryptJWT ∉
      (decryptFromCredentialsWithJWTWallet env codec lit dateParse nowMs now nonce
        encryptedData userWallet userCredentials).2 ∧
    WEvent.findCredential ∉
      (decryptFromCredentialsWithJWTWallet env codec lit dateParse nowMs now nonce
        encryptedData userWallet userCredentials).2 ∧
    WEvent.litExecute ∉
      (decryptFromCredentialsWithJWTWallet env codec lit dateParse nowMs now nonce
        encryptedData userWallet userCredentials).2 := by
  have hres : decryptFromCredentialsWithJWTWallet env codec lit dateParse nowMs now nonce
      encryptedData userWallet userCredentials =
      (.error "User wallet does not match the encrypted data owner".toList, []) := by
    rw [decryptFromCredentialsWithJWTWallet, if_pos h]
  refine ⟨hres, ?_, ?_, ?_⟩ <;> rw [hres] <;> simp

def wLitEnv : LitEnv where
  executeJs := fun _ _ => "result".toList

def wEncryptedData : EncryptedData where
  ciphertext := "ct".toList
  dataToEncryptHash := "h".toList
  accessControlConditions := "acc".toList
  accsResourceString := "res".toList
  credentialRequirements := c7Reqs
  userSignedJWT := "a.b.c".toList
  userAddress := ('0' :: 'x' :: List.replicate 40 'b')

/-- Witness for C2: a wallet whose address differs from the bundle owner's is
rejected before any further step. -/
theorem decryptWallet_address_mismatch_witness :
    decryptFromCredentialsWithJWTWallet wEthersEnvC1 wCodecC1 wLitEnv c5DateNow 0 100
        wNonce wEncryptedData wWallet [] =
      (.error "User wallet does not match the encrypted data owner".toList, []) ∧
    WEvent.mintDecryptJWT ∉
      (decryptFromCredentialsWithJWTWallet wEthersEnvC1 wCodecC1 wLitEnv c5DateNow 0 100
        wNonce wEncryptedData wWallet []).2 ∧
    WEvent.findCredential ∉
      (decryptFromCredentialsWithJWTWallet wEthersEnvC1 wCodecC1 wLitEnv c5DateNow 0 100
        wNonce wEncryptedData wWallet []).2 ∧
    WEvent.litExecute ∉
      (decryptFromCredentialsWithJWTWallet wEthersEnvC1 wCodecC1 wLitEnv c5DateNow 0 100
        wNonce wEncryptedData wWallet []).2 :=
  decryptWallet_address_mismatch wEthersEnvC1 wCodecC1 wLitEnv c5DateNow 0 100 wNonce
    wEncryptedData wWallet [] (by decide)

/-! ### Credentials-only decrypt orchestrator (`packages/browser/src/index.ts`,
credentials-only variant)

`atob` is the platform base64 decoder (standard alphabet, not url-safe): an
oracle here. -/

inductive CEvent where
  | warnAddressMismatch
  | findCredential
  deriving DecidableEq

structure MockResponse where
  success : Bool
  secret : Option (List Char)
  error : Option (List Char)
  deriving DecidableEq

structure EncryptedDataMeta where
  mock : Option Bool
  deriving DecidableEq

structure EncryptedDataC where
  ciphertext : List Char
  dataToEncryptHash : List Char
  accsResourceString : List Char
  credentialRequirements : CredentialRequirements
  userSignedJWT : List Char
  userAddress : List Char
  metadata : Option EncryptedDataMeta
  deriving DecidableEq

/-- `encryptedData.metadata?.mock || encryptedData.userSignedJWT === "mock.jwt.token"`. -/
def isMockData (d : EncryptedDataC) : Bool :=
  (d.metadata.bind (·.mock)).getD false || d.userSignedJWT == "mock.jwt.token".toList

/-- The address-mismatch warning events of the non-mock path
(`if (userAddress && userAddress.toLowerCase() !== ...)` only warns). -/
def warnEventsOf (d : EncryptedDataC) (userAddress : Option (List Char)) : List CEvent :=
  match userAddress with
  | some ua =>
    if ua ≠ [] ∧ jsToLower ua ≠ jsToLower d.userAddress then [CEvent.warnAddressMismatch]
    else []
  | none => []

/-- `userAddress || encryptedData.userAddress`. -/
def usedAddressOf (d : EncryptedDataC) (userAddress : Option (List Char)) : List Char :=
  match userAddress with
  | some ua => if ua ≠ [] then ua else d.userAddress
  | none => d.userAddress

def realDecryptErrorMsg : List Char :=
  ("Real Lit Protocol decryption requires wallet operations. " ++
   "This browser package is designed for credentials-only decryption. " ++
   "Please use mock encrypted content for testing.").toList

/-- `decryptFromCredentialsWithJWT(encryptedData, userCredentials, userAddress?)` —
the credentials-only variant. -/
def decryptFromCredentialsWithJWTCredsOnly (atob : List Char → Option (List Char))
    (dateParse : List Char → Int) (nowMs : Int) (d : EncryptedDataC)
    (userCredentials : List ParsedCredential) (userAddress : Option (List Char)) :
    Except (List Char) MockResponse × List CEvent :=
  if isMockData d then
    match atob d.ciphertext with
    | some decodedContent =>
      (.ok { success := true, secret := some decodedContent, error := none }, [])
    | none =>
      (.ok { success := false, secret := none,
             error := some "Failed to decode mock encrypted content".toList }, [])
  else
    match findMatchingCredential dateParse nowMs (loadCredentials userCredentials)
        d.credentialRequirements (usedAddressOf d userAddress) with
    | none =>
      (.error "No matching credential found for the specified requirements".toList,
       warnEventsOf d userAddress ++ [CEvent.findCredential])
    | some _ =>
      (.error realDecryptErrorMsg,
       warnEventsOf d userAddress ++ [CEvent.findCredential])

/-- C3: on mock input (mock metadata flag or the literal `mock.jwt.token`),
the credentials-only decrypt returns `success: true` with the base64-decoded
ciphertext — with no address check, no JWT verification, and no credential
matching — and returns `success: false` exactly when the base64 decode of the
ciphertext fails. -/
theorem decryptCredsOnly_mock_path (atob : List Char → Option (List Char))
    (dateParse : List Char → Int) (nowMs : Int) (d : EncryptedDataC)
    (userCredentials : List ParsedCredential) (userAddress : Option (List Char))
    (hmock : isMockData d = true) :
    (∀ s, atob d.ciphertext = some s →
      decryptFromCredentialsWithJWTCredsOnly atob dateParse nowMs d userCredentials
          userAddress =
        (.ok { success := true, secret := some s, error := none }, [])) ∧
    (atob d.ciphertext = none →
      decryptFromCredentialsWithJWTCredsOnly atob dateParse nowMs d userCredentials
          userAddress =
        (.ok { success := false, secret := none,
               error := some "Failed to decode mock encrypted content".toList }, [])) := by
  constructor
  · intro s hs
    rw [decryptFromCredentialsWithJWTCredsOnly, if_pos hmock, hs]
  · intro hs
    rw [decryptFromCredentialsWithJWTCredsOnly, if_pos hmock, hs]

def wMockData : EncryptedDataC where
  ciphertext := "Yg".toList
  dataToEncryptHash := "h".toList
  accsResourceString := "res".toList
  credentialRequirements := c7Reqs
  userSignedJWT := "mock.jwt.token".toList
  userAddress := "0xab".toList
  metadata := none

/-- Witness for C3 with a concrete mock bundle under a succeeding and a
failing `atob` oracle. -/
theorem decryptCredsOnly_mock_path_witness :
    decryptFromCredentialsWithJWTCredsOnly (fun _ => some ("b".toList)) c5DateNow 0
        wMockData [] (some ("0xcd".toList)) =
      (.ok { success := true, secret := some ("b".toList), error := none }, []) ∧
    decryptFromCredentialsWithJWTCredsOnly (fun _ => none) c5DateNow 0
        wMockData [] (some ("0xcd".toList)) =
      (.ok { success := false, secret := none,
             error := some "Failed to decode mock encrypted content".toList }, []) := by
  constructor
  · exact (decryptCredsOnly_mock_path (fun _ => some ("b".toList)) c5DateNow 0 wMockData
      [] (some ("0xcd".toList)) (by decide)).1 ("b".toList) rfl
  · exact (decryptCredsOnly_mock_path (fun _ => none) c5DateNow 0 wMockData
      [] (some ("0xcd".toList)) (by decide)).2 rfl

/-- C10: on non-mock input the credentials-only decrypt always throws — the
no-matching-credential error when no credential matches, and the
"Real Lit Protocol decryption requires wallet operations" error when one
does — and a supplied mismatching `userAddress` only produces a warning
event while the flow still proceeds to credential matching. -/
theorem decryptCredsOnly_nonmock_always_throws (atob : List Char → Option (List Char))
    (dateParse : List Char → Int) (nowMs : Int) (d : EncryptedDataC)
    (userCredentials : List ParsedCredential) (userAddress : Option (List Char))
    (hmock : isMockData d = false) :
    (findMatchingCredential dateParse nowMs (loadCredentials userCredentials)
        d.credentialRequirements (usedAddressOf d userAddress) = none →
      decryptFromCredentialsWithJWTCredsOnly atob dateParse nowMs d userCredentials
          userAddress =
        (.error "No matching credential found for the specified requirements".toList,
         warnEventsOf d userAddress ++ [CEvent.findCredential])) ∧
    (∀ c, findMatchingCredential dateParse nowMs (loadCredentials userCredentials)
        d.credentialRequirements (usedAddressOf d userAddress) = some c →
      decryptFromCredentialsWithJWTCredsOnly atob dateParse nowMs d userCredentials
          userAddress =
        (.error realDecryptErrorMsg,
         warnEventsOf d userAddress ++ [CEvent.findCredential])) ∧
    CEvent.findCredential ∈
      (decryptFromCredentialsWithJWTCredsOnly atob dateParse nowMs d userCredentials
        userAddress).2 := by
  refine ⟨?_, ?_, ?_⟩
  · intro hfind
    rw [decryptFromCredentialsWithJWTCredsOnly, if_neg (by simp [hmock]), hfind]
  · intro c hfind
    rw [decryptFromCredentialsWithJWTCredsOnly, if_neg (by simp [hmock]), hfind]
  · rw [decryptFromCredentialsWithJWTCredsOnly, if_neg (by simp [hmock])]
    rcases hfind : findMatchingCredential dateParse nowMs (loadCredentials userCredentials)
        d.credentialRequirements (usedAddressOf d userAddress) with _ | c <;> simp

def wRealData : EncryptedDataC where
  ciphertext := "ct".toList
  dataToEncryptHash := "h".toList
  accsResourceString := "res".toList
  credentialRequirements := c7Reqs
  userSignedJWT := "a.b.c".toList
  userAddress := "0xFF".toList
  metadata := none

/-- Witness for C10: a non-mock bundle whose supplied address mismatches the
bundle owner still proceeds to credential matching (only a warning event) and
throws the real-decryption error once a credential matches. -/
theorem decryptCredsOnly_nonmock_always_throws_witness :
    decryptFromCredentialsWithJWTCredsOnly (fun _ => none) c5DateNow 0 wRealData
        [c7Good] (some ("0xAB".toList)) =
      (.error realDecryptErrorMsg,
       [CEvent.warnAddressMismatch, CEvent.findCredential]) ∧
    CEvent.findCredential ∈
      (decryptFromCredentialsWithJWTCredsOnly (fun _ => none) c5DateNow 0 wRealData
        [c7Good] (some ("0xAB".toList))).2 := by
  constructor
  · exact ((decryptCredsOnly_nonmock_always_throws (fun _ => none) c5DateNow 0 wRealData
      [c7Good] (some ("0xAB".toList)) (by decide)).2.1 c7Good (by decide))
  · exact (decryptCredsOnly_nonmock_always_throws (fun _ => none) c5DateNow 0 wRealData
      [c7Good] (some ("0xAB".toList)) (by decide)).2.2

end LitEnc
